import Mathlib

/-!
Shallow embedding of `csv_to_ontology.py` (class `CSVOntologyPopulator`).

The program converts CSV rows describing software reviews into an RDF graph:
an in-memory set of (subject, predicate, object) triples.  We model

* RDF nodes (`Node`): URIs, plain string literals, and `xsd:date`-typed
  literals (the only typed literal the program produces);
* the graph as a `Finset Triple` (rdflib's `Graph.add` has set semantics:
  adding an already-present triple is a no-op);
* the populator state (`Populator`): the graph plus the reviewer cache,
  a Python dict modelled as an insertion-ordered association list;
* a CSV row (`Row`) as an association list from column names to string
  values; a missing key corresponds to a Python `KeyError` on `row[k]`;
* `datetime.strptime(s, "%Y-%m-%d").date()` as `strptime_Ymd`, returning
  `none` exactly when CPython raises `ValueError` (format mismatch or
  invalid calendar date); the ambient current date (`datetime.now().date()`)
  is passed in as an explicit `today` parameter;
* row processing (`processRow`) faithfully reproducing the order of graph
  mutations and the points where a `KeyError` aborts the row (the
  `try/except` skips the row, keeping all triples added so far).
-/

namespace CsvToOntology

/-- A calendar date (year, month, day), as produced by `datetime.date`. -/
structure PyDate where
  year : Nat
  month : Nat
  day : Nat
deriving DecidableEq, Repr

/-- An RDF node: a URI reference, a plain literal, or an `xsd:date` literal. -/
inductive Node where
  | uri : String → Node
  | lit : String → Node
  | dateLit : PyDate → Node
deriving DecidableEq, Repr

/-- An RDF triple (subject, predicate, object). -/
structure Triple where
  s : Node
  p : Node
  o : Node
deriving DecidableEq, Repr

/-- The namespace `http://www.example.org/software-review#` bound to `sw`. -/
def swNS : String := "http://www.example.org/software-review#"

/-- `self.SW[name]`: a URI in the software-review namespace. -/
def SW (name : String) : Node := .uri (swNS ++ name)

def rdfType : Node := .uri "http://www.w3.org/1999/02/22-rdf-syntax-ns#type"
def rdfsDomain : Node := .uri "http://www.w3.org/2000/01/rdf-schema#domain"
def rdfsRange : Node := .uri "http://www.w3.org/2000/01/rdf-schema#range"
def owlClass : Node := .uri "http://www.w3.org/2002/07/owl#Class"
def owlObjectProperty : Node := .uri "http://www.w3.org/2002/07/owl#ObjectProperty"
def owlDatatypeProperty : Node := .uri "http://www.w3.org/2002/07/owl#DatatypeProperty"
def xsdString : Node := .uri "http://www.w3.org/2001/XMLSchema#string"
def xsdDate : Node := .uri "http://www.w3.org/2001/XMLSchema#date"

/-- `self.graph.add(t)`: rdflib graphs are sets of triples. -/
def graphAdd (g : Finset Triple) (t : Triple) : Finset Triple := insert t g

/-- The `classes` list of `_initialize_ontology`. -/
def classes : List Node := [SW "Software", SW "Review", SW "Reviewer"]

/-- The `obj_properties` list of `_initialize_ontology`. -/
def obj_properties : List (Node × Node × Node) :=
  [(SW "hasReview", SW "Software", SW "Review"),
   (SW "madeBy", SW "Review", SW "Reviewer")]

/-- The `dt_properties` list of `_initialize_ontology`. -/
def dt_properties : List (Node × Node × Node) :=
  [(SW "software_id", SW "Software", xsdString),
   (SW "name", SW "Software", xsdString),
   (SW "pagina", SW "Software", xsdString),
   (SW "fonte", SW "Review", xsdString),
   (SW "recomendacao", SW "Review", xsdString),
   (SW "data_avaliacao", SW "Review", xsdDate),
   (SW "comentario", SW "Review", xsdString),
   (SW "vantagem", SW "Review", xsdString),
   (SW "desvantagem", SW "Review", xsdString),
   (SW "sft_anterior", SW "Review", xsdString),
   (SW "motivo_mudanca", SW "Review", xsdString),
   (SW "setor", SW "Reviewer", xsdString),
   (SW "porte", SW "Reviewer", xsdString),
   (SW "frequencia", SW "Reviewer", xsdString),
   (SW "frequencia_complementar", SW "Reviewer", xsdString)]

/-- `_initialize_ontology`: the schema triples written at construction time
(the `graph.bind` call only registers a prefix and adds no triple). -/
def initializeOntology : Finset Triple :=
  let g : Finset Triple := ∅
  let g := classes.foldl (fun g cls => graphAdd g ⟨cls, rdfType, owlClass⟩) g
  let g := obj_properties.foldl (fun g pdr =>
    graphAdd (graphAdd (graphAdd g ⟨pdr.1, rdfType, owlObjectProperty⟩)
      ⟨pdr.1, rdfsDomain, pdr.2.1⟩) ⟨pdr.1, rdfsRange, pdr.2.2⟩) g
  let g := dt_properties.foldl (fun g pdt =>
    graphAdd (graphAdd (graphAdd g ⟨pdt.1, rdfType, owlDatatypeProperty⟩)
      ⟨pdt.1, rdfsDomain, pdt.2.1⟩) ⟨pdt.1, rdfsRange, pdt.2.2⟩) g
  g

/-- The key of the reviewer cache: the (setor, porte, frequencia,
frequencia_complementar) tuple. -/
abbrev RKey := String × String × String × String

/-- The mutable state of a `CSVOntologyPopulator`: the triple graph and the
reviewer cache (a Python dict, modelled as an insertion-ordered
association list; the program inserts a key only after a failed lookup,
so the list never holds a duplicate key). -/
structure Populator where
  graph : Finset Triple
  reviewer_cache : List (RKey × Node)
deriving DecidableEq

/-- `CSVOntologyPopulator.__init__`: fresh graph with schema, empty cache. -/
def initialPopulator : Populator :=
  { graph := initializeOntology, reviewer_cache := [] }

/-- Dict lookup in the reviewer cache (`reviewer_key in self.reviewer_cache`
followed by `self.reviewer_cache[reviewer_key]`). -/
def lookupCache : List (RKey × Node) → RKey → Option Node
  | [], _ => none
  | (k, u) :: rest, key => if k = key then some u else lookupCache rest key

/-- A CSV row as produced by `csv.DictReader`: a finite map from column
names to string values (association list, first binding wins). -/
abbrev Row := List (String × String)

/-- `row[k]` / `row.get(k)`: `none` models an absent key (a `KeyError`
for the subscript form). -/
def rowGet? : Row → String → Option String
  | [], _ => none
  | (k, v) :: rest, key => if k = key then some v else rowGet? rest key

/-- `_get_or_create_reviewer`: look the attribute tuple up in the cache;
on a miss, mint `reviewer_<len(cache)+1>`, add the type and four
attribute triples, and record the URI in the cache. -/
def get_or_create_reviewer (st : Populator)
    (setor porte frequencia frequencia_complementar : String) :
    Populator × Node :=
  let reviewer_key : RKey := (setor, porte, frequencia, frequencia_complementar)
  match lookupCache st.reviewer_cache reviewer_key with
  | some u => (st, u)
  | none =>
    let reviewer_id := "reviewer_" ++ toString (st.reviewer_cache.length + 1)
    let reviewer_uri := SW reviewer_id
    let g := graphAdd st.graph ⟨reviewer_uri, rdfType, SW "Reviewer"⟩
    let g := graphAdd g ⟨reviewer_uri, SW "setor", .lit setor⟩
    let g := graphAdd g ⟨reviewer_uri, SW "porte", .lit porte⟩
    let g := graphAdd g ⟨reviewer_uri, SW "frequencia", .lit frequencia⟩
    let g := graphAdd g ⟨reviewer_uri, SW "frequencia_complementar", .lit frequencia_complementar⟩
    ({ graph := g,
       reviewer_cache := st.reviewer_cache ++ [(reviewer_key, reviewer_uri)] },
     reviewer_uri)

/-- The URI `self.SW[f"software_{software_id}"]`. -/
def softwareUri (software_id : String) : Node := SW ("software_" ++ software_id)

/-- `_get_or_create_software`: if the type triple for
`software_<software_id>` is absent, add type, `software_id`, `name`, and —
only when `pagina` is truthy (present and non-empty) — `pagina` triples. -/
def get_or_create_software (st : Populator) (software_id name : String)
    (pagina : Option String) : Populator × Node :=
  let software_uri := softwareUri software_id
  if ⟨software_uri, rdfType, SW "Software"⟩ ∈ st.graph then (st, software_uri)
  else
    let g := graphAdd st.graph ⟨software_uri, rdfType, SW "Software"⟩
    let g := graphAdd g ⟨software_uri, SW "software_id", .lit software_id⟩
    let g := graphAdd g ⟨software_uri, SW "name", .lit name⟩
    let g := match pagina with
      | some p => if p = "" then g else graphAdd g ⟨software_uri, SW "pagina", .lit p⟩
      | none => g
    ({ st with graph := g }, software_uri)

/-- Split a character list on `'-'` (the literal separators of the
`"%Y-%m-%d"` format): maximal dash-free segments. -/
def splitDash : List Char → List (List Char)
  | [] => [[]]
  | c :: rest =>
    if c = '-' then [] :: splitDash rest
    else
      match splitDash rest with
      | [] => [[c]]
      | seg :: segs => (c :: seg) :: segs

/-- Decimal digit characters, for `strptime`'s `\d` matching. -/
def allDigits (cs : List Char) : Bool := cs.all fun c => c.isDigit

/-- Decimal value of a digit string. -/
def strToNat (cs : List Char) : Nat := cs.foldl (fun a c => a * 10 + (c.toNat - 48)) 0

def isLeapYear (y : Nat) : Bool := (y % 4 == 0 && y % 100 != 0) || y % 400 == 0

def daysInMonth (y m : Nat) : Nat :=
  if m = 2 then (if isLeapYear y then 29 else 28)
  else if m = 4 ∨ m = 6 ∨ m = 9 ∨ m = 11 then 30
  else 31

/-- `datetime.strptime(s, "%Y-%m-%d").date()`: CPython's `%Y` matches
exactly four digits, `%m` one or two digits valued 1–12, `%d` one or two
digits valued 1–31, the whole string must be consumed, and the
`date` constructor then requires year ≥ 1 and day ≤ days-in-month.
Returns `none` where CPython raises `ValueError`. -/
def strptime_Ymd (s : String) : Option PyDate :=
  match splitDash s.toList with
  | [ys, ms, ds] =>
    if ys.length == 4 && allDigits ys
        && (ms.length == 1 || ms.length == 2) && allDigits ms
        && (ds.length == 1 || ds.length == 2) && allDigits ds then
      let y := strToNat ys
      let m := strToNat ms
      let d := strToNat ds
      if 1 ≤ y ∧ 1 ≤ m ∧ m ≤ 12 ∧ 1 ≤ d ∧ d ≤ daysInMonth y m then
        some ⟨y, m, d⟩
      else none
    else none
  | _ => none

/-- The URI `self.SW[f"review_{row_num}"]`. -/
def reviewUri (row_num : Nat) : Node := SW ("review_" ++ toString row_num)

/-- Lines 114–140 of `process_csv`: the Review section of one loop body,
entered after software and reviewer resolution succeeded.  Each
`row[k]` subscript may raise `KeyError`, which the enclosing
`try/except` turns into "skip the rest of the row, keep the triples
added so far"; the match ladder reproduces exactly that prefix
behaviour (note the Review type triple is added before `row['fonte']`
is read). -/
def processReviewPart (st : Populator) (row : Row) (row_num : Nat)
    (today : PyDate) (software_uri reviewer_uri : Node) : Populator :=
  match rowGet? row "data_avaliacao" with
  | none => st
  | some dateStr =>
    let date_obj := (strptime_Ymd dateStr).getD today
    let review_uri := reviewUri row_num
    let g := graphAdd st.graph ⟨review_uri, rdfType, SW "Review"⟩
    match rowGet? row "fonte" with
    | none => { st with graph := g }
    | some fonte =>
      let g := graphAdd g ⟨review_uri, SW "fonte", .lit fonte⟩
      match rowGet? row "recomendacao" with
      | none => { st with graph := g }
      | some recomendacao =>
        let g := graphAdd g ⟨review_uri, SW "recomendacao", .lit recomendacao⟩
        let g := graphAdd g ⟨review_uri, SW "data_avaliacao", .dateLit date_obj⟩
        match rowGet? row "comentario" with
        | none => { st with graph := g }
        | some comentario =>
          let g := graphAdd g ⟨review_uri, SW "comentario", .lit comentario⟩
          match rowGet? row "vantagem" with
          | none => { st with graph := g }
          | some vantagem =>
            let g := graphAdd g ⟨review_uri, SW "vantagem", .lit vantagem⟩
            match rowGet? row "desvantagem" with
            | none => { st with graph := g }
            | some desvantagem =>
              let g := graphAdd g ⟨review_uri, SW "desvantagem", .lit desvantagem⟩
              let g := match rowGet? row "sft_anterior" with
                | some v => if v = "" then g else graphAdd g ⟨review_uri, SW "sft_anterior", .lit v⟩
                | none => g
              let g := match rowGet? row "motivo_mudanca" with
                | some v => if v = "" then g else graphAdd g ⟨review_uri, SW "motivo_mudanca", .lit v⟩
                | none => g
              let g := graphAdd g ⟨software_uri, SW "hasReview", review_uri⟩
              let g := graphAdd g ⟨review_uri, SW "madeBy", reviewer_uri⟩
              { st with graph := g }

/-- One iteration of the `for row_num, row in enumerate(reader, start=1)`
loop of `process_csv`, `try/except` included: a missing required key
aborts the row at the corresponding subscript, keeping the state
mutations already performed. -/
def processRow (st : Populator) (row : Row) (row_num : Nat) (today : PyDate) :
    Populator :=
  match rowGet? row "software_id" with
  | none => st
  | some software_id =>
    let name := (rowGet? row "name").getD ("Software " ++ software_id)
    let res := get_or_create_software st software_id name (rowGet? row "pagina")
    let st := res.1
    match rowGet? row "setor", rowGet? row "porte",
        rowGet? row "frequencia", rowGet? row "frequencia_complementar" with
    | some setor, some porte, some frequencia, some frequencia_complementar =>
      let res2 := get_or_create_reviewer st setor porte frequencia frequencia_complementar
      processReviewPart res2.1 row row_num today res.2 res2.2
    | _, _, _, _ => st

/-- The row loop of `process_csv`, rows numbered from `row_num`. -/
def processRows (st : Populator) (rows : List Row) (row_num : Nat)
    (today : PyDate) : Populator :=
  match rows with
  | [] => st
  | row :: rest => processRows (processRow st row row_num today) rest (row_num + 1) today

/-- `process_csv`: iterate over the data rows (1-indexed), threading the
populator state.  `today` is the ambient `datetime.now().date()`. -/
def process_csv (st : Populator) (rows : List Row) (today : PyDate) : Populator :=
  processRows st rows 1 today

/-- `len(list(self.graph.subjects(RDF.type, cls)))` in `print_statistics`:
one subject per matching triple, and the graph is a set. -/
def subjectsCount (g : Finset Triple) (cls : Node) : Nat :=
  (g.filter fun t => t.p = rdfType ∧ t.o = cls).card

/-- The three counts printed by `print_statistics`. -/
def software_count (st : Populator) : Nat := subjectsCount st.graph (SW "Software")

def review_count (st : Populator) : Nat := subjectsCount st.graph (SW "Review")

def reviewer_count (st : Populator) : Nat := subjectsCount st.graph (SW "Reviewer")

/-! ### Derived notions used by the specification statements -/

/-- The columns whose absence makes `process_csv` skip a row (accessed
with `row[...]` subscripts). -/
def requiredKeys : List String :=
  ["software_id", "setor", "porte", "frequencia", "frequencia_complementar",
   "data_avaliacao", "fonte", "recomendacao", "comentario", "vantagem", "desvantagem"]

/-- A row with every required column present (processing raises no
exception on it). -/
def rowValid (r : Row) : Prop := ∀ k ∈ requiredKeys, (rowGet? r k).isSome = true

instance (r : Row) : Decidable (rowValid r) := by
  unfold rowValid
  exact inferInstance

/-- The (setor, porte, frequencia, frequencia_complementar) tuple of a
row (meaningful for rows where the four fields are present). -/
def tupleOf (r : Row) : RKey :=
  ((rowGet? r "setor").getD "", (rowGet? r "porte").getD "",
   (rowGet? r "frequencia").getD "", (rowGet? r "frequencia_complementar").getD "")

/-- The datatype properties attached to a Review by the loop body. -/
def reviewAttrPred (p : Node) : Prop :=
  p = SW "fonte" ∨ p = SW "recomendacao" ∨ p = SW "data_avaliacao" ∨
  p = SW "comentario" ∨ p = SW "vantagem" ∨ p = SW "desvantagem" ∨
  p = SW "sft_anterior" ∨ p = SW "motivo_mudanca"

instance (p : Node) : Decidable (reviewAttrPred p) := by
  unfold reviewAttrPred
  exact inferInstance

/-- Triples `_get_or_create_software` can emit for id `sid`. -/
def softShapeFor (sid : String) (t : Triple) : Prop :=
  t = ⟨softwareUri sid, rdfType, SW "Software"⟩ ∨
  t = ⟨softwareUri sid, SW "software_id", .lit sid⟩ ∨
  (∃ v, t = ⟨softwareUri sid, SW "name", .lit v⟩) ∨
  (∃ v, t = ⟨softwareUri sid, SW "pagina", .lit v⟩)

/-- Triples `_get_or_create_reviewer` can emit (discriminated by
predicate/object, which suffices for every claim below). -/
def revShape (t : Triple) : Prop :=
  (t.p = rdfType ∧ t.o = SW "Reviewer") ∨ t.p = SW "setor" ∨ t.p = SW "porte" ∨
  t.p = SW "frequencia" ∨ t.p = SW "frequencia_complementar"

/-- Triples the Review section of the loop body can emit for row number `m`. -/
def reviewShapeAt (m : Nat) (t : Triple) : Prop :=
  (t.s = reviewUri m ∧
    ((t.p = rdfType ∧ t.o = SW "Review") ∨ reviewAttrPred t.p ∨ t.p = SW "madeBy")) ∨
  (t.p = SW "hasReview" ∧ t.o = reviewUri m)

/-- A schema-level triple: a `rdfs:domain`/`rdfs:range` declaration or a
typing of a vocabulary term as an OWL class or property. -/
def isSchemaTriple (t : Triple) : Prop :=
  t.p = rdfsDomain ∨ t.p = rdfsRange ∨
  (t.p = rdfType ∧ (t.o = owlClass ∨ t.o = owlObjectProperty ∨ t.o = owlDatatypeProperty))

instance (t : Triple) : Decidable (isSchemaTriple t) := by
  unfold isSchemaTriple
  exact inferInstance

/-- The name/pagina attribute triples the creation branch of
`_get_or_create_software` emits. -/
def namePagTriples (software_id name : String) (pagina : Option String) : Finset Triple :=
  match pagina with
  | some p =>
    if p = "" then {⟨softwareUri software_id, SW "name", .lit name⟩}
    else {⟨softwareUri software_id, SW "name", .lit name⟩,
          ⟨softwareUri software_id, SW "pagina", .lit p⟩}
  | none => {⟨softwareUri software_id, SW "name", .lit name⟩}

/-- The name/pagina attribute triples of Software `sid` in graph `g`. -/
def namePagFilter (g : Finset Triple) (sid : String) : Finset Triple :=
  g.filter fun t => t.s = softwareUri sid ∧ (t.p = SW "name" ∨ t.p = SW "pagina")

/-- The Review-attribute triples with subject `review_<m>` in graph `g`. -/
def attrFilter (g : Finset Triple) (m : Nat) : Finset Triple :=
  g.filter fun t => t.s = reviewUri m ∧ reviewAttrPred t.p

/-- The Review-attribute triples the loop body emits for a valid row. -/
def reviewAttrTriples (r : Row) (m : Nat) (today : PyDate) : Finset Triple :=
  let rv := reviewUri m
  let base : Finset Triple :=
    {⟨rv, SW "fonte", .lit ((rowGet? r "fonte").getD "")⟩,
     ⟨rv, SW "recomendacao", .lit ((rowGet? r "recomendacao").getD "")⟩,
     ⟨rv, SW "data_avaliacao",
       .dateLit ((strptime_Ymd ((rowGet? r "data_avaliacao").getD "")).getD today)⟩,
     ⟨rv, SW "comentario", .lit ((rowGet? r "comentario").getD "")⟩,
     ⟨rv, SW "vantagem", .lit ((rowGet? r "vantagem").getD "")⟩,
     ⟨rv, SW "desvantagem", .lit ((rowGet? r "desvantagem").getD "")⟩}
  let base := match rowGet? r "sft_anterior" with
    | some v => if v = "" then base else insert ⟨rv, SW "sft_anterior", .lit v⟩ base
    | none => base
  match rowGet? r "motivo_mudanca" with
  | some v => if v = "" then base else insert ⟨rv, SW "motivo_mudanca", .lit v⟩ base
  | none => base

/-- Every reviewer URI recorded in the cache is typed as a Reviewer in
the graph (a state invariant of the populator). -/
def cacheTyped (st : Populator) : Prop :=
  ∀ k u, lookupCache st.reviewer_cache k = some u →
    (⟨u, rdfType, SW "Reviewer"⟩ : Triple) ∈ st.graph

/-- Triples asserting `rv` as the object of a `hasReview` link. -/
def hasReviewInto (g : Finset Triple) (rv : Node) : Finset Triple :=
  g.filter fun t => t.p = SW "hasReview" ∧ t.o = rv

/-- Triples asserting `rv` as the subject of a `madeBy` link. -/
def madeByFrom (g : Finset Triple) (rv : Node) : Finset Triple :=
  g.filter fun t => t.s = rv ∧ t.p = SW "madeBy"

/-- A fully valid sample row (all required and optional fields). -/
def sampleRow1 : Row :=
  [("software_id", "s1"), ("name", "Alpha"), ("pagina", "http://a.example"),
   ("setor", "X"), ("porte", "P"), ("frequencia", "F"),
   ("frequencia_complementar", "G"), ("fonte", "web"), ("recomendacao", "sim"),
   ("data_avaliacao", "2024-05-17"), ("comentario", "ok"), ("vantagem", "v"),
   ("desvantagem", "d")]

/-- A valid row for the same software and reviewer tuple as `sampleRow1`
but with a different name and an invalid calendar date. -/
def sampleRow2 : Row :=
  [("software_id", "s1"), ("name", "Beta"), ("setor", "X"), ("porte", "P"),
   ("frequencia", "F"), ("frequencia_complementar", "G"), ("fonte", "app"),
   ("recomendacao", "nao"), ("data_avaliacao", "2024-13-40"),
   ("comentario", "c2"), ("vantagem", "v2"), ("desvantagem", "d2")]

/-- A row that fails mid-processing: `fonte` is missing, so the loop body
raises `KeyError` after the Review type triple is already added. -/
def badRow : Row :=
  [("software_id", "s1"), ("setor", "a"), ("porte", "b"), ("frequencia", "c"),
   ("frequencia_complementar", "dd"), ("data_avaliacao", "2024-01-01")]

/-! ### Decimal numerals are injective

`f"review_{row_num}"` and `f"reviewer_{n}"` build URIs from decimal
numerals, so distinctness of the generated URIs rests on injectivity of
`Nat.repr`.  We prove it by evaluating the digit string back to the
number. -/

theorem digitChar_toNat (k : Nat) (h : k < 10) : (Nat.digitChar k).toNat = 48 + k := by
  revert k
  decide

theorem toDigitsCore_append (n : Nat) :
    ∀ (fuel : Nat) (ds : List Char), n < fuel →
      Nat.toDigitsCore 10 fuel n ds = Nat.toDigitsCore 10 (n + 1) n [] ++ ds := by
  induction n using Nat.strong_induction_on with
  | _ n ih =>
    intro fuel ds hfuel
    obtain ⟨f, rfl⟩ : ∃ f, fuel = f + 1 := ⟨fuel - 1, by omega⟩
    by_cases hd : n / 10 = 0
    · simp only [Nat.toDigitsCore, hd, if_true]
      rfl
    · have hn10 : 10 ≤ n := by
        rcases Nat.lt_or_ge n 10 with h10 | h10
        · exact absurd (Nat.div_eq_of_lt h10) hd
        · exact h10
      have hlt : n / 10 < n := Nat.div_lt_self (by omega) (by omega)
      simp only [Nat.toDigitsCore, hd, if_false]
      rw [ih (n / 10) hlt f (Nat.digitChar (n % 10) :: ds) (by omega),
          ih (n / 10) hlt n [Nat.digitChar (n % 10)] (by omega),
          List.append_assoc]
      rfl

theorem strToNat_append (xs ys : List Char) :
    strToNat (xs ++ ys) = ys.foldl (fun a c => a * 10 + (c.toNat - 48)) (strToNat xs) := by
  simp [strToNat, List.foldl_append]

theorem strToNat_toDigits (n : Nat) : strToNat (Nat.toDigits 10 n) = n := by
  induction n using Nat.strong_induction_on with
  | _ n ih =>
    show strToNat (Nat.toDigitsCore 10 (n + 1) n []) = n
    by_cases hd : n / 10 = 0
    · have h10 : n < 10 := by
        rcases Nat.lt_or_ge n 10 with h10 | h10
        · exact h10
        · exact absurd hd (by omega)
      have hn : n % 10 = n := Nat.mod_eq_of_lt h10
      simp only [Nat.toDigitsCore, hd, if_true, hn]
      simp only [strToNat, List.foldl_cons, List.foldl_nil, Nat.zero_mul, Nat.zero_add]
      rw [digitChar_toNat n h10]
      omega
    · have hn10 : 10 ≤ n := by
        rcases Nat.lt_or_ge n 10 with h10 | h10
        · exact absurd (Nat.div_eq_of_lt h10) hd
        · exact h10
      have hlt : n / 10 < n := Nat.div_lt_self (by omega) (by omega)
      simp only [Nat.toDigitsCore, hd, if_false]
      rw [toDigitsCore_append (n / 10) n [Nat.digitChar (n % 10)] (by omega)]
      rw [strToNat_append]
      show strToNat (Nat.toDigits 10 (n / 10)) * 10 + ((Nat.digitChar (n % 10)).toNat - 48) = n
      rw [ih (n / 10) hlt, digitChar_toNat (n % 10) (Nat.mod_lt _ (by omega))]
      omega

theorem Nat_repr_injective {a b : Nat} (h : Nat.repr a = Nat.repr b) : a = b := by
  have hd : Nat.toDigits 10 a = Nat.toDigits 10 b := by
    have := String.ext_iff.mp h
    simpa [Nat.repr, List.asString] using this
  have := congrArg strToNat hd
  rwa [strToNat_toDigits, strToNat_toDigits] at this

theorem toString_nat_injective {a b : Nat} (h : toString a = toString b) : a = b :=
  Nat_repr_injective h

/-! ### Injectivity of the generated URIs -/

theorem String_append_cancel_left {a b c : String} (h : a ++ b = a ++ c) : b = c := by
  apply String.ext
  have := String.ext_iff.mp h
  simp only [String.data_append] at this
  exact List.append_cancel_left this

theorem SW_injective {a b : String} (h : SW a = SW b) : a = b := by
  have : swNS ++ a = swNS ++ b := Node.uri.injEq .. ▸ (Node.uri.inj h)
  exact String_append_cancel_left this

theorem softwareUri_injective {a b : String} (h : softwareUri a = softwareUri b) :
    a = b :=
  String_append_cancel_left (SW_injective h)

theorem reviewUri_injective {a b : Nat} (h : reviewUri a = reviewUri b) : a = b :=
  toString_nat_injective (String_append_cancel_left (SW_injective h))

/-! ### Vocabulary facts -/

theorem SW_eq_iff {a b : String} : SW a = SW b ↔ a = b :=
  ⟨SW_injective, fun h => h ▸ rfl⟩

theorem softwareUri_eq_iff {a b : String} : softwareUri a = softwareUri b ↔ a = b :=
  ⟨softwareUri_injective, fun h => h ▸ rfl⟩

theorem reviewUri_eq_iff {a b : Nat} : reviewUri a = reviewUri b ↔ a = b :=
  ⟨reviewUri_injective, fun h => h ▸ rfl⟩

/-- A URI in the `sw` namespace never equals a W3C vocabulary URI: the
first fifteen characters already differ. -/
theorem SW_ne_of_prefix {u : String} (a : String)
    (h : swNS.data.take 15 ≠ u.data.take 15) : SW a ≠ .uri u := by
  intro heq
  have h2 : (swNS ++ a).data = u.data := String.ext_iff.mp (Node.uri.inj heq)
  have h3 : ((swNS ++ a).data).take 15 = u.data.take 15 := by rw [h2]
  rw [String.data_append, List.take_append_of_le_length (by decide)] at h3
  exact h h3

theorem SW_ne_rdfType (a : String) : SW a ≠ rdfType := SW_ne_of_prefix a (by decide)

theorem SW_ne_rdfsDomain (a : String) : SW a ≠ rdfsDomain := SW_ne_of_prefix a (by decide)

theorem SW_ne_rdfsRange (a : String) : SW a ≠ rdfsRange := SW_ne_of_prefix a (by decide)

theorem SW_ne_owlClass (a : String) : SW a ≠ owlClass := SW_ne_of_prefix a (by decide)

theorem SW_ne_owlObjectProperty (a : String) : SW a ≠ owlObjectProperty :=
  SW_ne_of_prefix a (by decide)

theorem SW_ne_owlDatatypeProperty (a : String) : SW a ≠ owlDatatypeProperty :=
  SW_ne_of_prefix a (by decide)

theorem rdfType_ne_SW (a : String) : rdfType ≠ SW a := (SW_ne_rdfType a).symm

/-! ### Graph and cache basics -/

theorem mem_graphAdd {g : Finset Triple} {t u : Triple} :
    u ∈ graphAdd g t ↔ u = t ∨ u ∈ g := Finset.mem_insert

theorem subset_graphAdd (g : Finset Triple) (t : Triple) : g ⊆ graphAdd g t :=
  Finset.subset_insert _ _

theorem mem_graphAdd_self (g : Finset Triple) (t : Triple) : t ∈ graphAdd g t :=
  Finset.mem_insert_self _ _

theorem lookupCache_append (c : List (RKey × Node)) (e : RKey × Node) (k : RKey) :
    lookupCache (c ++ [e]) k =
      match lookupCache c k with
      | some u => some u
      | none => if e.1 = k then some e.2 else none := by
  induction c with
  | nil => rfl
  | cons hd tl ih =>
    obtain ⟨k', u⟩ := hd
    by_cases h : k' = k <;> simp [lookupCache, h, ih]

theorem lookupCache_append_mono {c : List (RKey × Node)} {k : RKey} {u : Node}
    (e : RKey × Node) (h : lookupCache c k = some u) :
    lookupCache (c ++ [e]) k = some u := by
  rw [lookupCache_append, h]

/-! ### `_get_or_create_software` -/

theorem gocs_snd (st : Populator) (sid nm : String) (pg : Option String) :
    (get_or_create_software st sid nm pg).2 = softwareUri sid := by
  cases pg with
  | none => simp only [get_or_create_software]; split <;> rfl
  | some p =>
    simp only [get_or_create_software]
    split
    · rfl
    · by_cases hp : p = "" <;> simp [hp]

theorem gocs_cache (st : Populator) (sid nm : String) (pg : Option String) :
    (get_or_create_software st sid nm pg).1.reviewer_cache = st.reviewer_cache := by
  cases pg with
  | none => simp only [get_or_create_software]; split <;> rfl
  | some p =>
    simp only [get_or_create_software]
    split
    · rfl
    · by_cases hp : p = "" <;> simp [hp]

theorem gocs_hit {st : Populator} {sid : String} (nm : String) (pg : Option String)
    (h : (⟨softwareUri sid, rdfType, SW "Software"⟩ : Triple) ∈ st.graph) :
    get_or_create_software st sid nm pg = (st, softwareUri sid) := by
  simp only [get_or_create_software]
  rw [if_pos h]

theorem gocs_mono (st : Populator) (sid nm : String) (pg : Option String) :
    st.graph ⊆ (get_or_create_software st sid nm pg).1.graph := by
  intro t ht
  cases pg with
  | none =>
    simp only [get_or_create_software]
    split
    · exact ht
    · simp only [mem_graphAdd]; tauto
  | some p =>
    simp only [get_or_create_software]
    split
    · exact ht
    · by_cases hp : p = "" <;> simp only [hp, if_true, if_false, mem_graphAdd] <;> tauto

theorem gocs_mem {st : Populator} {sid nm : String} {pg : Option String} {t : Triple}
    (h : t ∈ (get_or_create_software st sid nm pg).1.graph) :
    t ∈ st.graph ∨ softShapeFor sid t := by
  cases pg with
  | none =>
    simp only [get_or_create_software] at h
    split at h
    · exact Or.inl h
    · simp only [mem_graphAdd] at h
      rcases h with h | h | h | h <;> simp [softShapeFor, h]
  | some p =>
    simp only [get_or_create_software] at h
    split at h
    · exact Or.inl h
    · by_cases hp : p = "" <;> simp only [hp, if_true, if_false, mem_graphAdd] at h
      · rcases h with h | h | h | h <;> simp [softShapeFor, h]
      · rcases h with h | h | h | h | h <;> simp [softShapeFor, h]

theorem gocs_typed (st : Populator) (sid nm : String) (pg : Option String) :
    (⟨softwareUri sid, rdfType, SW "Software"⟩ : Triple) ∈
      (get_or_create_software st sid nm pg).1.graph := by
  cases pg with
  | none =>
    simp only [get_or_create_software]
    split
    · assumption
    · simp [mem_graphAdd]
  | some p =>
    simp only [get_or_create_software]
    split
    · assumption
    · by_cases hp : p = "" <;> simp [hp, mem_graphAdd]

/-! ### `_get_or_create_reviewer` -/

theorem gocr_hit {st : Populator} {a b c d : String} {u : Node}
    (h : lookupCache st.reviewer_cache (a, b, c, d) = some u) :
    get_or_create_reviewer st a b c d = (st, u) := by
  simp only [get_or_create_reviewer, h]

theorem gocr_miss_snd {st : Populator} {a b c d : String}
    (h : lookupCache st.reviewer_cache (a, b, c, d) = none) :
    (get_or_create_reviewer st a b c d).2 =
      SW ("reviewer_" ++ toString (st.reviewer_cache.length + 1)) := by
  simp only [get_or_create_reviewer, h]

theorem gocr_miss_cache {st : Populator} {a b c d : String}
    (h : lookupCache st.reviewer_cache (a, b, c, d) = none) :
    (get_or_create_reviewer st a b c d).1.reviewer_cache =
      st.reviewer_cache ++ [((a, b, c, d), (get_or_create_reviewer st a b c d).2)] := by
  simp only [get_or_create_reviewer, h]

theorem gocr_cache_lookup (st : Populator) (a b c d : String) :
    lookupCache (get_or_create_reviewer st a b c d).1.reviewer_cache (a, b, c, d) =
      some (get_or_create_reviewer st a b c d).2 := by
  rcases hl : lookupCache st.reviewer_cache (a, b, c, d) with _ | u
  · simp only [get_or_create_reviewer, hl]
    rw [lookupCache_append, hl]
    simp
  · rw [gocr_hit hl]
    exact hl

theorem gocr_cache_mono {st : Populator} {a b c d : String} {k : RKey} {u : Node}
    (h : lookupCache st.reviewer_cache k = some u) :
    lookupCache (get_or_create_reviewer st a b c d).1.reviewer_cache k = some u := by
  rcases hl : lookupCache st.reviewer_cache (a, b, c, d) with _ | v
  · simp only [get_or_create_reviewer, hl]
    exact lookupCache_append_mono _ h
  · rw [gocr_hit hl]
    exact h

theorem gocr_graph_mono (st : Populator) (a b c d : String) :
    st.graph ⊆ (get_or_create_reviewer st a b c d).1.graph := by
  rcases hl : lookupCache st.reviewer_cache (a, b, c, d) with _ | v
  · simp only [get_or_create_reviewer, hl]
    intro t ht
    simp only [mem_graphAdd]
    tauto
  · rw [gocr_hit hl]

theorem gocr_mem {st : Populator} {a b c d : String} {t : Triple}
    (h : t ∈ (get_or_create_reviewer st a b c d).1.graph) :
    t ∈ st.graph ∨ revShape t := by
  rcases hl : lookupCache st.reviewer_cache (a, b, c, d) with _ | v
  · simp only [get_or_create_reviewer, hl, mem_graphAdd] at h
    rcases h with h | h | h | h | h | h <;> simp [revShape, h]
  · rw [gocr_hit hl] at h
    exact Or.inl h

theorem gocr_typed {st : Populator} {a b c d : String} (hinv : cacheTyped st) :
    (⟨(get_or_create_reviewer st a b c d).2, rdfType, SW "Reviewer"⟩ : Triple) ∈
      (get_or_create_reviewer st a b c d).1.graph := by
  rcases hl : lookupCache st.reviewer_cache (a, b, c, d) with _ | v
  · simp only [get_or_create_reviewer, hl, mem_graphAdd]
    tauto
  · rw [gocr_hit hl]
    exact hinv _ _ hl

theorem gocr_cacheTyped {st : Populator} (a b c d : String) (hinv : cacheTyped st) :
    cacheTyped (get_or_create_reviewer st a b c d).1 := by
  intro k u hk
  rcases hl : lookupCache st.reviewer_cache (a, b, c, d) with _ | v
  · rw [gocr_miss_cache hl, lookupCache_append] at hk
    rcases hku : lookupCache st.reviewer_cache k with _ | w
    · rw [hku] at hk
      by_cases hek : (a, b, c, d) = k
      · simp only [hek, if_true] at hk
        rw [gocr_miss_snd hl] at hk
        obtain rfl := Option.some.inj hk
        simp only [get_or_create_reviewer, hl, mem_graphAdd]
        tauto
      · simp only [hek, if_false] at hk
        cases hk
    · rw [hku] at hk
      cases hk
      exact gocr_graph_mono st a b c d (hinv _ _ hku)
  · rw [gocr_hit hl] at hk ⊢
    exact hinv _ _ hk

/-! ### The Review section of the loop body -/

theorem prp_cache (st : Populator) (row : Row) (n : Nat) (today : PyDate)
    (su ru : Node) :
    (processReviewPart st row n today su ru).reviewer_cache = st.reviewer_cache := by
  simp only [processReviewPart]
  repeat' split
  all_goals rfl

theorem prp_mono (st : Populator) (row : Row) (n : Nat) (today : PyDate)
    (su ru : Node) :
    st.graph ⊆ (processReviewPart st row n today su ru).graph := by
  intro t ht
  simp only [processReviewPart]
  repeat' split
  all_goals
    first
    | exact ht
    | (simp only [mem_graphAdd]; tauto)

theorem attrP_fonte : reviewAttrPred (SW "fonte") := Or.inl rfl

theorem attrP_recomendacao : reviewAttrPred (SW "recomendacao") := Or.inr (Or.inl rfl)

theorem attrP_data : reviewAttrPred (SW "data_avaliacao") :=
  Or.inr (Or.inr (Or.inl rfl))

theorem attrP_comentario : reviewAttrPred (SW "comentario") :=
  Or.inr (Or.inr (Or.inr (Or.inl rfl)))

theorem attrP_vantagem : reviewAttrPred (SW "vantagem") :=
  Or.inr (Or.inr (Or.inr (Or.inr (Or.inl rfl))))

theorem attrP_desvantagem : reviewAttrPred (SW "desvantagem") :=
  Or.inr (Or.inr (Or.inr (Or.inr (Or.inr (Or.inl rfl)))))

theorem attrP_sft : reviewAttrPred (SW "sft_anterior") :=
  Or.inr (Or.inr (Or.inr (Or.inr (Or.inr (Or.inr (Or.inl rfl))))))

theorem attrP_motivo : reviewAttrPred (SW "motivo_mudanca") :=
  Or.inr (Or.inr (Or.inr (Or.inr (Or.inr (Or.inr (Or.inr rfl))))))

theorem shape_type (n : Nat) :
    reviewShapeAt n ⟨reviewUri n, rdfType, SW "Review"⟩ :=
  Or.inl ⟨rfl, Or.inl ⟨rfl, rfl⟩⟩

theorem shape_attr (n : Nat) (p v : Node) (hp : reviewAttrPred p) :
    reviewShapeAt n ⟨reviewUri n, p, v⟩ :=
  Or.inl ⟨rfl, Or.inr (Or.inl hp)⟩

theorem shape_madeBy (n : Nat) (u : Node) :
    reviewShapeAt n ⟨reviewUri n, SW "madeBy", u⟩ :=
  Or.inl ⟨rfl, Or.inr (Or.inr rfl)⟩

theorem shape_hasReview (n : Nat) (su : Node) :
    reviewShapeAt n ⟨su, SW "hasReview", reviewUri n⟩ :=
  Or.inr ⟨rfl, rfl⟩

theorem prp_mem {st : Populator} {row : Row} {n : Nat} {today : PyDate}
    {su ru : Node} {t : Triple}
    (h : t ∈ (processReviewPart st row n today su ru).graph) :
    t ∈ st.graph ∨ reviewShapeAt n t := by
  simp only [processReviewPart] at h
  repeat' split at h
  all_goals try exact Or.inl h
  all_goals simp only [mem_graphAdd] at h
  all_goals
    repeat'
      first
      | exact Or.inl h
      | (rcases h with rfl | h <;>
          try (refine Or.inr ?_
               first
               | exact shape_type _
               | exact shape_hasReview _ _
               | exact shape_madeBy _ _
               | exact shape_attr _ _ _ attrP_fonte
               | exact shape_attr _ _ _ attrP_recomendacao
               | exact shape_attr _ _ _ attrP_data
               | exact shape_attr _ _ _ attrP_comentario
               | exact shape_attr _ _ _ attrP_vantagem
               | exact shape_attr _ _ _ attrP_desvantagem
               | exact shape_attr _ _ _ attrP_sft
               | exact shape_attr _ _ _ attrP_motivo))

/-! ### The Review section on a row with all its fields present -/

theorem not_attrP_rdfType : ¬ reviewAttrPred rdfType := by
  rintro (h | h | h | h | h | h | h | h) <;> exact rdfType_ne_SW _ h

theorem not_attrP_hasReview : ¬ reviewAttrPred (SW "hasReview") := by
  rintro (h | h | h | h | h | h | h | h) <;> exact absurd (SW_injective h) (by decide)

theorem not_attrP_madeBy : ¬ reviewAttrPred (SW "madeBy") := by
  rintro (h | h | h | h | h | h | h | h) <;> exact absurd (SW_injective h) (by decide)

theorem attrFilter_graphAdd_skip {a : Triple} (g : Finset Triple) (n : Nat)
    (ha : ¬(a.s = reviewUri n ∧ reviewAttrPred a.p)) :
    attrFilter (graphAdd g a) n = attrFilter g n := by
  simp [attrFilter, graphAdd, Finset.filter_insert, ha]

theorem attrFilter_graphAdd_attr (g : Finset Triple) (n : Nat) (p v : Node)
    (hp : reviewAttrPred p) :
    attrFilter (graphAdd g ⟨reviewUri n, p, v⟩) n =
      insert ⟨reviewUri n, p, v⟩ (attrFilter g n) := by
  simp [attrFilter, graphAdd, Finset.filter_insert, hp]

theorem attrFilter_skip_rdfType (g : Finset Triple) (n : Nat) (s o : Node) :
    attrFilter (graphAdd g ⟨s, rdfType, o⟩) n = attrFilter g n :=
  attrFilter_graphAdd_skip g n fun h => not_attrP_rdfType h.2

theorem attrFilter_skip_hasReview (g : Finset Triple) (n : Nat) (s o : Node) :
    attrFilter (graphAdd g ⟨s, SW "hasReview", o⟩) n = attrFilter g n :=
  attrFilter_graphAdd_skip g n fun h => not_attrP_hasReview h.2

theorem attrFilter_skip_madeBy (g : Finset Triple) (n : Nat) (s o : Node) :
    attrFilter (graphAdd g ⟨s, SW "madeBy", o⟩) n = attrFilter g n :=
  attrFilter_graphAdd_skip g n fun h => not_attrP_madeBy h.2

set_option maxHeartbeats 1000000 in
theorem prp_attrFilter {st : Populator} {row : Row} {n : Nat} {today : PyDate}
    {su ru : Node} {da f r c v d : String}
    (hda : rowGet? row "data_avaliacao" = some da)
    (hf : rowGet? row "fonte" = some f)
    (hr : rowGet? row "recomendacao" = some r)
    (hc : rowGet? row "comentario" = some c)
    (hv : rowGet? row "vantagem" = some v)
    (hd : rowGet? row "desvantagem" = some d) :
    attrFilter (processReviewPart st row n today su ru).graph n =
      reviewAttrTriples row n today ∪ attrFilter st.graph n := by
  simp only [processReviewPart, hda, hf, hr, hc, hv, hd]
  repeat' split
  all_goals
    simp only [attrFilter_skip_madeBy, attrFilter_skip_hasReview,
      attrFilter_skip_rdfType, attrFilter_graphAdd_attr, attrP_fonte,
      attrP_recomendacao, attrP_data, attrP_comentario, attrP_vantagem,
      attrP_desvantagem, attrP_sft, attrP_motivo]
  all_goals
    simp only [reviewAttrTriples, hda, *]
  all_goals
    (ext t
     simp [Finset.insert_union, Finset.mem_insert, Finset.mem_union]
     tauto)

theorem hri_skip {a : Triple} (g : Finset Triple) (rv : Node)
    (ha : ¬(a.p = SW "hasReview" ∧ a.o = rv)) :
    hasReviewInto (graphAdd g a) rv = hasReviewInto g rv := by
  simp [hasReviewInto, graphAdd, Finset.filter_insert, ha]

theorem hri_add (g : Finset Triple) (rv s : Node) :
    hasReviewInto (graphAdd g ⟨s, SW "hasReview", rv⟩) rv =
      insert ⟨s, SW "hasReview", rv⟩ (hasReviewInto g rv) := by
  simp [hasReviewInto, graphAdd, Finset.filter_insert]

theorem mbf_skip {a : Triple} (g : Finset Triple) (rv : Node)
    (ha : ¬(a.s = rv ∧ a.p = SW "madeBy")) :
    madeByFrom (graphAdd g a) rv = madeByFrom g rv := by
  simp [madeByFrom, graphAdd, Finset.filter_insert, ha]

theorem mbf_add (g : Finset Triple) (rv o : Node) :
    madeByFrom (graphAdd g ⟨rv, SW "madeBy", o⟩) rv =
      insert ⟨rv, SW "madeBy", o⟩ (madeByFrom g rv) := by
  simp [madeByFrom, graphAdd, Finset.filter_insert]

theorem SW_ne_hasReview_of_ne (x : String) (hx : x ≠ "hasReview") :
    SW x ≠ SW "hasReview" := fun h => hx (SW_injective h)

theorem SW_ne_madeBy_of_ne (x : String) (hx : x ≠ "madeBy") :
    SW x ≠ SW "madeBy" := fun h => hx (SW_injective h)

theorem prp_hasReviewInto {st : Populator} {row : Row} {n : Nat} {today : PyDate}
    {su ru : Node} {da f r c v d : String}
    (hda : rowGet? row "data_avaliacao" = some da)
    (hf : rowGet? row "fonte" = some f)
    (hr : rowGet? row "recomendacao" = some r)
    (hc : rowGet? row "comentario" = some c)
    (hv : rowGet? row "vantagem" = some v)
    (hd : rowGet? row "desvantagem" = some d) :
    hasReviewInto (processReviewPart st row n today su ru).graph (reviewUri n) =
      insert ⟨su, SW "hasReview", reviewUri n⟩
        (hasReviewInto st.graph (reviewUri n)) := by
  simp only [processReviewPart, hda, hf, hr, hc, hv, hd]
  repeat' split
  all_goals
    simp [hri_skip, hri_add, SW_eq_iff, rdfType_ne_SW]

theorem prp_madeByFrom {st : Populator} {row : Row} {n : Nat} {today : PyDate}
    {su ru : Node} {da f r c v d : String}
    (hda : rowGet? row "data_avaliacao" = some da)
    (hf : rowGet? row "fonte" = some f)
    (hr : rowGet? row "recomendacao" = some r)
    (hc : rowGet? row "comentario" = some c)
    (hv : rowGet? row "vantagem" = some v)
    (hd : rowGet? row "desvantagem" = some d) :
    madeByFrom (processReviewPart st row n today su ru).graph (reviewUri n) =
      insert ⟨reviewUri n, SW "madeBy", ru⟩
        (madeByFrom st.graph (reviewUri n)) := by
  simp only [processReviewPart, hda, hf, hr, hc, hv, hd]
  repeat' split
  all_goals
    simp [mbf_skip, mbf_add, SW_eq_iff, rdfType_ne_SW]

theorem prp_type_mem {st : Populator} {row : Row} {n : Nat} {today : PyDate}
    {su ru : Node} {da : String}
    (hda : rowGet? row "data_avaliacao" = some da) :
    (⟨reviewUri n, rdfType, SW "Review"⟩ : Triple) ∈
      (processReviewPart st row n today su ru).graph := by
  simp only [processReviewPart, hda]
  repeat' split
  all_goals simp [mem_graphAdd]

theorem prp_madeBy_mem {st : Populator} {row : Row} {n : Nat} {today : PyDate}
    {su ru : Node} {da f r c v d : String}
    (hda : rowGet? row "data_avaliacao" = some da)
    (hf : rowGet? row "fonte" = some f)
    (hr : rowGet? row "recomendacao" = some r)
    (hc : rowGet? row "comentario" = some c)
    (hv : rowGet? row "vantagem" = some v)
    (hd : rowGet? row "desvantagem" = some d) :
    (⟨reviewUri n, SW "madeBy", ru⟩ : Triple) ∈
      (processReviewPart st row n today su ru).graph := by
  simp only [processReviewPart, hda, hf, hr, hc, hv, hd]
  repeat' split
  all_goals simp [mem_graphAdd]

theorem prp_data_mem {st : Populator} {row : Row} {n : Nat} {today : PyDate}
    {su ru : Node} {da f r : String}
    (hda : rowGet? row "data_avaliacao" = some da)
    (hf : rowGet? row "fonte" = some f)
    (hr : rowGet? row "recomendacao" = some r) :
    (⟨reviewUri n, SW "data_avaliacao",
        .dateLit ((strptime_Ymd da).getD today)⟩ : Triple) ∈
      (processReviewPart st row n today su ru).graph := by
  simp only [processReviewPart, hda, hf, hr]
  repeat' split
  all_goals simp [mem_graphAdd]

/-! ### One loop iteration -/

theorem processRow_software_id_none {row : Row}
    (st : Populator) (n : Nat) (today : PyDate)
    (h : rowGet? row "software_id" = none) :
    processRow st row n today = st := by
  simp only [processRow, h]

theorem processRow_mono (st : Populator) (row : Row) (n : Nat) (today : PyDate) :
    st.graph ⊆ (processRow st row n today).graph := by
  rcases hsw : rowGet? row "software_id" with _ | sid
  · simp only [processRow, hsw]
    exact Finset.Subset.refl _
  · simp only [processRow, hsw]
    split
    · exact Finset.Subset.trans (gocs_mono _ _ _ _)
        (Finset.Subset.trans (gocr_graph_mono _ _ _ _ _) (prp_mono _ _ _ _ _ _))
    · exact gocs_mono _ _ _ _

theorem processRow_cache_mono {st : Populator} {row : Row} {n : Nat}
    {today : PyDate} {k : RKey} {u : Node}
    (h : lookupCache st.reviewer_cache k = some u) :
    lookupCache (processRow st row n today).reviewer_cache k = some u := by
  rcases hsw : rowGet? row "software_id" with _ | sid
  · simpa only [processRow, hsw] using h
  · simp only [processRow, hsw]
    split
    · rw [prp_cache]
      apply gocr_cache_mono
      rwa [gocs_cache]
    · rwa [gocs_cache]

theorem processRow_cacheTyped {st : Populator} (row : Row) (n : Nat)
    (today : PyDate) (hinv : cacheTyped st) :
    cacheTyped (processRow st row n today) := by
  rcases hsw : rowGet? row "software_id" with _ | sid
  · simpa only [processRow, hsw] using hinv
  · simp only [processRow, hsw]
    have hinv1 : cacheTyped (get_or_create_software st sid
        ((rowGet? row "name").getD ("Software " ++ sid)) (rowGet? row "pagina")).1 := by
      intro k u hk
      rw [gocs_cache] at hk
      exact gocs_mono _ _ _ _ (hinv _ _ hk)
    split
    · intro k u hk
      rw [prp_cache] at hk
      exact prp_mono _ _ _ _ _ _ (gocr_cacheTyped _ _ _ _ hinv1 _ _ hk)
    · exact hinv1

theorem processRow_mem {st : Populator} {row : Row} {n : Nat} {today : PyDate}
    {t : Triple} (h : t ∈ (processRow st row n today).graph) :
    t ∈ st.graph ∨
      (∃ sid, rowGet? row "software_id" = some sid ∧ softShapeFor sid t) ∨
      revShape t ∨ reviewShapeAt n t := by
  rcases hsw : rowGet? row "software_id" with _ | sid
  · simp only [processRow, hsw] at h
    exact Or.inl h
  · simp only [processRow, hsw] at h
    have soft : t ∈ (get_or_create_software st sid
        ((rowGet? row "name").getD ("Software " ++ sid)) (rowGet? row "pagina")).1.graph →
        t ∈ st.graph ∨
          (∃ sid2, (some sid : Option String) = some sid2 ∧ softShapeFor sid2 t) ∨
          revShape t ∨ reviewShapeAt n t := by
      intro hm
      rcases gocs_mem hm with hm | hm
      · exact Or.inl hm
      · exact Or.inr (Or.inl ⟨sid, rfl, hm⟩)
    split at h
    · rcases prp_mem h with h | h
      · rcases gocr_mem h with h | h
        · exact soft h
        · exact Or.inr (Or.inr (Or.inl h))
      · exact Or.inr (Or.inr (Or.inr h))
    · exact soft h

/-! ### The row loop -/

theorem processRows_mono (st : Populator) (rows : List Row) (n : Nat)
    (today : PyDate) : st.graph ⊆ (processRows st rows n today).graph := by
  induction rows generalizing st n with
  | nil => exact Finset.Subset.refl _
  | cons row rest ih =>
    exact Finset.Subset.trans (processRow_mono st row n today) (ih _ _)

theorem processRows_cache_mono {st : Populator} {rows : List Row} {n : Nat}
    {today : PyDate} {k : RKey} {u : Node}
    (h : lookupCache st.reviewer_cache k = some u) :
    lookupCache (processRows st rows n today).reviewer_cache k = some u := by
  induction rows generalizing st n with
  | nil => exact h
  | cons row rest ih => exact ih (processRow_cache_mono h)

theorem processRows_cacheTyped {today : PyDate} :
    ∀ (rows : List Row) (st : Populator) (n : Nat), cacheTyped st →
      cacheTyped (processRows st rows n today) := by
  intro rows
  induction rows with
  | nil => exact fun st n h => h
  | cons row rest ih =>
    exact fun st n h => ih _ _ (processRow_cacheTyped row n today h)

theorem processRows_mem {st : Populator} {rows : List Row} {n : Nat}
    {today : PyDate} {t : Triple}
    (h : t ∈ (processRows st rows n today).graph) :
    t ∈ st.graph ∨
      (∃ r ∈ rows, ∃ sid, rowGet? r "software_id" = some sid ∧ softShapeFor sid t) ∨
      revShape t ∨
      (∃ m, n ≤ m ∧ m < n + rows.length ∧ reviewShapeAt m t) := by
  induction rows generalizing st n with
  | nil => exact Or.inl h
  | cons row rest ih =>
    rcases ih h with h2 | h2 | h2 | h2
    · rcases processRow_mem h2 with h3 | h3 | h3 | h3
      · exact Or.inl h3
      · obtain ⟨sid, hs, hshape⟩ := h3
        exact Or.inr (Or.inl ⟨row, by simp, sid, hs, hshape⟩)
      · exact Or.inr (Or.inr (Or.inl h3))
      · exact Or.inr (Or.inr (Or.inr ⟨n, le_refl n, by simp, h3⟩))
    · obtain ⟨r, hr, hrest⟩ := h2
      exact Or.inr (Or.inl ⟨r, by simp [hr], hrest⟩)
    · exact Or.inr (Or.inr (Or.inl h2))
    · obtain ⟨m, h1, hlt, hshape⟩ := h2
      refine Or.inr (Or.inr (Or.inr ⟨m, by omega, by simp; omega, hshape⟩))

theorem processRows_split (rows : List Row) (i : Nat) (st : Populator) (n : Nat)
    (today : PyDate) (hi : i < rows.length) :
    processRows st rows n today =
      processRows
        (processRow (processRows st (rows.take i) n today) rows[i] (n + i) today)
        (rows.drop (i + 1)) (n + i + 1) today := by
  induction rows generalizing st n i with
  | nil => simp at hi
  | cons row rest ih =>
    cases i with
    | zero => simp [processRows]
    | succ j =>
      have hj : j < rest.length := by simpa using hi
      have e1 : n + (j + 1) = n + 1 + j := by omega
      simp only [processRows, List.take_succ_cons, List.drop_succ_cons,
        List.getElem_cons_succ, e1]
      exact ih j (processRow st row n today) (n + 1) hj

set_option maxRecDepth 40000

/-! ### Schema facts about the initial graph -/

theorem filter_eq_of_mem_iff {g g2 : Finset Triple} {p : Triple → Prop}
    [DecidablePred p] (hsub : g ⊆ g2) (hmem : ∀ t ∈ g2, p t → t ∈ g) :
    g2.filter p = g.filter p := by
  ext t
  simp only [Finset.mem_filter]
  exact ⟨fun ⟨ht, hp⟩ => ⟨hmem t ht hp, hp⟩, fun ⟨ht, hp⟩ => ⟨hsub ht, hp⟩⟩

theorem init_schema_only : ∀ t ∈ initializeOntology, isSchemaTriple t := by decide

theorem not_schema_of_p_SW {t : Triple} (x : String) (hp : t.p = SW x) :
    ¬ isSchemaTriple t := by
  intro hs
  rcases hs with h1 | h1 | ⟨h1, h2⟩ <;> rw [hp] at h1
  · exact SW_ne_rdfsDomain x h1
  · exact SW_ne_rdfsRange x h1
  · exact SW_ne_rdfType x h1

theorem not_schema_type_SW {t : Triple} (x : String) (hp : t.p = rdfType)
    (ho : t.o = SW x) : ¬ isSchemaTriple t := by
  intro hs
  rcases hs with h1 | h1 | ⟨h1, h2⟩
  · rw [hp] at h1; exact absurd h1 (by decide)
  · rw [hp] at h1; exact absurd h1 (by decide)
  · rcases h2 with h2 | h2 | h2 <;> rw [ho] at h2
    · exact SW_ne_owlClass x h2
    · exact SW_ne_owlObjectProperty x h2
    · exact SW_ne_owlDatatypeProperty x h2

theorem softShape_not_schema {sid : String} {t : Triple}
    (h : softShapeFor sid t) : ¬ isSchemaTriple t := by
  rcases h with rfl | rfl | ⟨v, rfl⟩ | ⟨v, rfl⟩
  · exact not_schema_type_SW "Software" rfl rfl
  · exact not_schema_of_p_SW "software_id" rfl
  · exact not_schema_of_p_SW "name" rfl
  · exact not_schema_of_p_SW "pagina" rfl

theorem revShape_not_schema {t : Triple} (h : revShape t) : ¬ isSchemaTriple t := by
  rcases h with ⟨hp, ho⟩ | hp | hp | hp | hp
  · exact not_schema_type_SW "Reviewer" hp ho
  · exact not_schema_of_p_SW "setor" hp
  · exact not_schema_of_p_SW "porte" hp
  · exact not_schema_of_p_SW "frequencia" hp
  · exact not_schema_of_p_SW "frequencia_complementar" hp

theorem reviewShape_not_schema {m : Nat} {t : Triple}
    (h : reviewShapeAt m t) : ¬ isSchemaTriple t := by
  rcases h with ⟨hs, ⟨hp, ho⟩ | hp | hp⟩ | ⟨hp, ho⟩
  · exact not_schema_type_SW "Review" hp ho
  · rcases hp with hp | hp | hp | hp | hp | hp | hp | hp
    · exact not_schema_of_p_SW "fonte" hp
    · exact not_schema_of_p_SW "recomendacao" hp
    · exact not_schema_of_p_SW "data_avaliacao" hp
    · exact not_schema_of_p_SW "comentario" hp
    · exact not_schema_of_p_SW "vantagem" hp
    · exact not_schema_of_p_SW "desvantagem" hp
    · exact not_schema_of_p_SW "sft_anterior" hp
    · exact not_schema_of_p_SW "motivo_mudanca" hp
  · exact not_schema_of_p_SW "madeBy" hp
  · exact not_schema_of_p_SW "hasReview" hp

/-! ### Claim theorems -/

/-- C9: on an empty data-row list (header-only input), `process_csv`
leaves the populator exactly as initialized — the graph holds precisely
the schema triples (every triple is schema-level) — and the three
statistics counts are all zero. -/
theorem empty_input_schema_only (today : PyDate) :
    process_csv initialPopulator [] today = initialPopulator ∧
    initialPopulator.graph.filter isSchemaTriple = initialPopulator.graph ∧
    software_count (process_csv initialPopulator [] today) = 0 ∧
    review_count (process_csv initialPopulator [] today) = 0 ∧
    reviewer_count (process_csv initialPopulator [] today) = 0 := by
  have h0 : process_csv initialPopulator [] today = initialPopulator := rfl
  refine ⟨h0, by decide, ?_, ?_, ?_⟩ <;> rw [h0] <;> decide

/-- C8 counterexample: initialization declares fifteen datatype
properties, not fourteen — `dt_properties` has 15 entries
(`software_id`, `name`, `pagina`, `fonte`, `recomendacao`,
`data_avaliacao`, `comentario`, `vantagem`, `desvantagem`,
`sft_anterior`, `motivo_mudanca`, `setor`, `porte`, `frequencia`,
`frequencia_complementar`). -/
theorem fourteen_dt_properties_counterexample :
    subjectsCount initializeOntology owlDatatypeProperty = 15 ∧
    subjectsCount initializeOntology owlDatatypeProperty ≠ 14 := by decide

/-- C8 (amended): initialization declares exactly fifteen datatype
properties, each bound to exactly one domain class and exactly one range
datatype, the range being `xsd:string` for every property except
`data_avaliacao`, whose range is `xsd:date`. -/
theorem schema_fifteen_datatype_properties :
    subjectsCount initializeOntology owlDatatypeProperty = 15 ∧
    (∀ t ∈ initializeOntology, t.p = rdfType → t.o = owlDatatypeProperty →
      ((initializeOntology.filter fun u => u.s = t.s ∧ u.p = rdfsDomain).card = 1 ∧
       (initializeOntology.filter fun u => u.s = t.s ∧ u.p = rdfsRange).card = 1 ∧
       (if t.s = SW "data_avaliacao"
        then (⟨t.s, rdfsRange, xsdDate⟩ : Triple) ∈ initializeOntology
        else (⟨t.s, rdfsRange, xsdString⟩ : Triple) ∈ initializeOntology))) := by
  decide

/-- C6: a row whose `software_id` key is absent is skipped atomically —
the loop body is the identity on the populator state (no Software,
Review, or relationship triples), and processing the remaining rows
continues with the row counter advanced past the skipped row, so the
final state (hence the final counts) is exactly that of processing the
remaining rows alone. -/
theorem missing_software_id_skips_row (st : Populator) (row : Row)
    (rest : List Row) (n : Nat) (today : PyDate)
    (h : rowGet? row "software_id" = none) :
    processRow st row n today = st ∧
    processRows st (row :: rest) n today = processRows st rest (n + 1) today := by
  refine ⟨processRow_software_id_none st n today h, ?_⟩
  simp only [processRows, processRow_software_id_none st n today h]

theorem missing_software_id_skips_row_witness :
    rowGet? [("name", "Alpha"), ("setor", "X")] "software_id" = none ∧
    processRow initialPopulator [("name", "Alpha"), ("setor", "X")] 1 ⟨2024, 1, 1⟩ =
      initialPopulator ∧
    processRows initialPopulator [[("name", "Alpha"), ("setor", "X")]] 1 ⟨2024, 1, 1⟩ =
      processRows initialPopulator [] 2 ⟨2024, 1, 1⟩ :=
  ⟨by decide,
   (missing_software_id_skips_row initialPopulator _ [] 1 ⟨2024, 1, 1⟩ (by decide)).1,
   (missing_software_id_skips_row initialPopulator _ [] 1 ⟨2024, 1, 1⟩ (by decide)).2⟩

/-- C7: the schema triples are written once at initialization and row
processing never adds, duplicates, or alters any schema-level triple:
for every input, the schema-level portion of the final graph is exactly
the initial graph. -/
theorem schema_triples_stable (rows : List Row) (today : PyDate) :
    (process_csv initialPopulator rows today).graph.filter isSchemaTriple =
      initialPopulator.graph := by
  ext t
  simp only [Finset.mem_filter]
  constructor
  · rintro ⟨ht, hs⟩
    rcases processRows_mem ht with h | h | h | h
    · exact h
    · obtain ⟨r, _, sid, _, hshape⟩ := h
      exact absurd hs (softShape_not_schema hshape)
    · exact absurd hs (revShape_not_schema h)
    · obtain ⟨m, _, _, hshape⟩ := h
      exact absurd hs (reviewShape_not_schema hshape)
  · intro ht
    exact ⟨processRows_mono _ _ _ _ ht, init_schema_only t ht⟩

/-! ### Row-validity helpers -/

theorem rowValid_get {r : Row} {k : String} (h : rowValid r)
    (hk : k ∈ requiredKeys) : ∃ v, rowGet? r k = some v :=
  Option.isSome_iff_exists.mp (h k hk)

/-! ### C10: determinism apart from the date fallback -/

theorem prp_today_irrelevant {st : Populator} {row : Row} {n : Nat}
    {t1 t2 : PyDate} {su ru : Node}
    (h : ∀ s, rowGet? row "data_avaliacao" = some s → (strptime_Ymd s).isSome) :
    processReviewPart st row n t1 su ru = processReviewPart st row n t2 su ru := by
  rcases hda : rowGet? row "data_avaliacao" with _ | ds
  · simp only [processReviewPart, hda]
  · obtain ⟨d0, hd0⟩ := Option.isSome_iff_exists.mp (h ds hda)
    simp only [processReviewPart, hda, hd0, Option.getD_some]

theorem processRow_today_irrelevant {row : Row} (st : Populator) (n : Nat)
    (t1 t2 : PyDate)
    (h : ∀ s, rowGet? row "data_avaliacao" = some s → (strptime_Ymd s).isSome) :
    processRow st row n t1 = processRow st row n t2 := by
  rcases hsw : rowGet? row "software_id" with _ | sid
  · simp only [processRow, hsw]
  · simp only [processRow, hsw]
    rcases hse : rowGet? row "setor" with _ | se <;>
      rcases hpo : rowGet? row "porte" with _ | po <;>
        rcases hfr : rowGet? row "frequencia" with _ | fr <;>
          rcases hfc : rowGet? row "frequencia_complementar" with _ | fc <;>
            simp only []
    exact prp_today_irrelevant h

theorem processRows_today_irrelevant {t1 t2 : PyDate} :
    ∀ (rows : List Row), (∀ r ∈ rows, ∀ s,
        rowGet? r "data_avaliacao" = some s → (strptime_Ymd s).isSome) →
      ∀ (st : Populator) (n : Nat),
        processRows st rows n t1 = processRows st rows n t2 := by
  intro rows
  induction rows with
  | nil => intro _ st n; rfl
  | cons row rest ih =>
    intro h st n
    simp only [processRows]
    rw [processRow_today_irrelevant st n t1 t2 (h row (by simp))]
    exact ih (fun r hr => h r (by simp [hr])) _ _

/-- C10: the current-date fallback for unparseable `data_avaliacao` values
is the only ambient input of the transformation: if every row's
`data_avaliacao` is present and parses under `%Y-%m-%d`, the final
populator state is the same for any two values of the processing date,
i.e. any two runs on the same rows produce identical graphs. -/
theorem process_deterministic_when_dates_parse (rows : List Row)
    (t1 t2 : PyDate)
    (h : ∀ r ∈ rows, ∃ s d, rowGet? r "data_avaliacao" = some s ∧
        strptime_Ymd s = some d) :
    process_csv initialPopulator rows t1 = process_csv initialPopulator rows t2 := by
  apply processRows_today_irrelevant
  intro r hr s hs
  obtain ⟨s0, d0, hs0, hp0⟩ := h r hr
  rw [hs] at hs0
  obtain rfl := Option.some.inj hs0
  rw [hp0]
  rfl

theorem process_deterministic_witness :
    process_csv initialPopulator [sampleRow1] ⟨2025, 1, 1⟩ =
      process_csv initialPopulator [sampleRow1] ⟨2026, 2, 2⟩ :=
  process_deterministic_when_dates_parse [sampleRow1] ⟨2025, 1, 1⟩ ⟨2026, 2, 2⟩
    (by
      intro r hr
      rw [List.mem_singleton] at hr
      subst hr
      exact ⟨"2024-05-17", ⟨2024, 5, 17⟩, by decide, by decide⟩)

/-! ### C5: fallback to the processing date on unparseable dates -/

theorem processRow_data_mem {st : Populator} {row : Row} {n : Nat}
    {today : PyDate} (h : rowValid row) (ds : String)
    (hda : rowGet? row "data_avaliacao" = some ds) :
    (⟨reviewUri n, rdfType, SW "Review"⟩ : Triple) ∈ (processRow st row n today).graph ∧
    (⟨reviewUri n, SW "data_avaliacao", .dateLit ((strptime_Ymd ds).getD today)⟩ : Triple) ∈
      (processRow st row n today).graph := by
  obtain ⟨sid, hsw⟩ := rowValid_get h (show "software_id" ∈ requiredKeys by decide)
  obtain ⟨se, hse⟩ := rowValid_get h (show "setor" ∈ requiredKeys by decide)
  obtain ⟨po, hpo⟩ := rowValid_get h (show "porte" ∈ requiredKeys by decide)
  obtain ⟨fr, hfr⟩ := rowValid_get h (show "frequencia" ∈ requiredKeys by decide)
  obtain ⟨fc, hfc⟩ := rowValid_get h
    (show "frequencia_complementar" ∈ requiredKeys by decide)
  obtain ⟨fo, hfo⟩ := rowValid_get h (show "fonte" ∈ requiredKeys by decide)
  obtain ⟨re, hre⟩ := rowValid_get h (show "recomendacao" ∈ requiredKeys by decide)
  simp only [processRow, hsw, hse, hpo, hfr, hfc]
  exact ⟨prp_type_mem hda, prp_data_mem hda hfo hre⟩

/-- C5: a row whose `data_avaliacao` does not parse under `%Y-%m-%d`
(e.g. `"2024-13-40"`) is not an ingestion failure: when the row's
required fields are present, the row still yields its Review, and the
`data_avaliacao` attribute is the date literal of the processing date
(the `datetime.now().date()` fallback) — no error is raised for the
date. -/
theorem invalid_date_fallback (rows : List Row) (today : PyDate) (i : Nat)
    (hi : i < rows.length) (h : rowValid rows[i]) (ds : String)
    (hda : rowGet? rows[i] "data_avaliacao" = some ds)
    (hbad : strptime_Ymd ds = none) :
    (⟨reviewUri (1 + i), rdfType, SW "Review"⟩ : Triple) ∈
      (process_csv initialPopulator rows today).graph ∧
    (⟨reviewUri (1 + i), SW "data_avaliacao", .dateLit today⟩ : Triple) ∈
      (process_csv initialPopulator rows today).graph := by
  unfold process_csv
  rw [processRows_split rows i initialPopulator 1 today hi]
  have hmem := @processRow_data_mem
    (processRows initialPopulator (rows.take i) 1 today) rows[i]
    (1 + i) today h ds hda
  rw [hbad] at hmem
  simp only [Option.getD_none] at hmem
  exact ⟨processRows_mono _ _ _ _ hmem.1, processRows_mono _ _ _ _ hmem.2⟩

theorem invalid_date_fallback_witness :
    rowValid sampleRow2 ∧ strptime_Ymd "2024-13-40" = none ∧
    (⟨reviewUri 1, rdfType, SW "Review"⟩ : Triple) ∈
      (process_csv initialPopulator [sampleRow2] ⟨2025, 3, 4⟩).graph ∧
    (⟨reviewUri 1, SW "data_avaliacao", .dateLit ⟨2025, 3, 4⟩⟩ : Triple) ∈
      (process_csv initialPopulator [sampleRow2] ⟨2025, 3, 4⟩).graph :=
  ⟨by decide, by decide,
   (invalid_date_fallback [sampleRow2] ⟨2025, 3, 4⟩ 0 (by decide) (by decide)
     "2024-13-40" (by decide) (by decide)).1,
   (invalid_date_fallback [sampleRow2] ⟨2025, 3, 4⟩ 0 (by decide) (by decide)
     "2024-13-40" (by decide) (by decide)).2⟩

/-! ### C2: reviewer deduplication -/

theorem gocs_cacheTyped {st : Populator} {sid nm : String} {pg : Option String}
    (hinv : cacheTyped st) :
    cacheTyped (get_or_create_software st sid nm pg).1 := by
  intro k u hk
  rw [gocs_cache] at hk
  exact gocs_mono _ _ _ _ (hinv _ _ hk)

theorem initial_cacheTyped : cacheTyped initialPopulator := by
  intro k u hk
  cases hk

theorem processRow_madeBy {st : Populator} {row : Row} {n : Nat} {today : PyDate}
    (h : rowValid row) (hinv : cacheTyped st) :
    ∃ u, (⟨reviewUri n, SW "madeBy", u⟩ : Triple) ∈ (processRow st row n today).graph ∧
      lookupCache (processRow st row n today).reviewer_cache (tupleOf row) = some u ∧
      (⟨u, rdfType, SW "Reviewer"⟩ : Triple) ∈ (processRow st row n today).graph := by
  obtain ⟨sid, hsw⟩ := rowValid_get h (show "software_id" ∈ requiredKeys by decide)
  obtain ⟨se, hse⟩ := rowValid_get h (show "setor" ∈ requiredKeys by decide)
  obtain ⟨po, hpo⟩ := rowValid_get h (show "porte" ∈ requiredKeys by decide)
  obtain ⟨fr, hfr⟩ := rowValid_get h (show "frequencia" ∈ requiredKeys by decide)
  obtain ⟨fc, hfc⟩ := rowValid_get h
    (show "frequencia_complementar" ∈ requiredKeys by decide)
  obtain ⟨da, hda⟩ := rowValid_get h (show "data_avaliacao" ∈ requiredKeys by decide)
  obtain ⟨fo, hfo⟩ := rowValid_get h (show "fonte" ∈ requiredKeys by decide)
  obtain ⟨re, hre⟩ := rowValid_get h (show "recomendacao" ∈ requiredKeys by decide)
  obtain ⟨co, hco⟩ := rowValid_get h (show "comentario" ∈ requiredKeys by decide)
  obtain ⟨va, hva⟩ := rowValid_get h (show "vantagem" ∈ requiredKeys by decide)
  obtain ⟨de, hde⟩ := rowValid_get h (show "desvantagem" ∈ requiredKeys by decide)
  have htup : tupleOf row = (se, po, fr, fc) := by
    simp [tupleOf, hse, hpo, hfr, hfc]
  simp only [processRow, hsw, hse, hpo, hfr, hfc]
  refine ⟨(get_or_create_reviewer (get_or_create_software st sid
      ((rowGet? row "name").getD ("Software " ++ sid)) (rowGet? row "pagina")).1
      se po fr fc).2, ?_, ?_, ?_⟩
  · exact prp_madeBy_mem hda hfo hre hco hva hde
  · rw [prp_cache, htup]
    exact gocr_cache_lookup _ se po fr fc
  · exact prp_mono _ _ _ _ _ _ (gocr_typed (gocs_cacheTyped hinv))

theorem processRows_madeBy (rows : List Row) (today : PyDate) (i : Nat)
    (hi : i < rows.length) (h : rowValid rows[i]) :
    ∃ u, (⟨reviewUri (1 + i), SW "madeBy", u⟩ : Triple) ∈
        (process_csv initialPopulator rows today).graph ∧
      lookupCache (process_csv initialPopulator rows today).reviewer_cache
        (tupleOf rows[i]) = some u ∧
      (⟨u, rdfType, SW "Reviewer"⟩ : Triple) ∈
        (process_csv initialPopulator rows today).graph := by
  unfold process_csv
  rw [processRows_split rows i initialPopulator 1 today hi]
  have hinvB : cacheTyped (processRows initialPopulator (rows.take i) 1 today) :=
    processRows_cacheTyped _ _ _ initial_cacheTyped
  obtain ⟨u, hm, hl, ht⟩ := @processRow_madeBy
    (processRows initialPopulator (rows.take i) 1 today) rows[i]
    (1 + i) today h hinvB
  exact ⟨u, processRows_mono _ _ _ _ hm, processRows_cache_mono hl,
    processRows_mono _ _ _ _ ht⟩

/-- C2: (i) a reviewer lookup with an already-cached attribute tuple
returns the cached URI and leaves the whole populator state unchanged;
(ii) a lookup with a fresh tuple mints `reviewer_<n>` where `n` is the
current cache size plus one; (iii) consequently any two valid rows with
equal (setor, porte, frequencia, frequencia_complementar) tuples have
their Reviews linked by `madeBy` to one and the same Reviewer entity. -/
theorem reviewer_dedup :
    (∀ (st : Populator) (a b c d : String) (u : Node),
        lookupCache st.reviewer_cache (a, b, c, d) = some u →
        get_or_create_reviewer st a b c d = (st, u)) ∧
    (∀ (st : Populator) (a b c d : String),
        lookupCache st.reviewer_cache (a, b, c, d) = none →
        (get_or_create_reviewer st a b c d).2 =
          SW ("reviewer_" ++ toString (st.reviewer_cache.length + 1))) ∧
    (∀ (rows : List Row) (today : PyDate) (i j : Nat)
        (hi : i < rows.length) (hj : j < rows.length),
        rowValid rows[i] → rowValid rows[j] →
        tupleOf rows[i] = tupleOf rows[j] →
        ∃ u,
          (⟨u, rdfType, SW "Reviewer"⟩ : Triple) ∈
            (process_csv initialPopulator rows today).graph ∧
          (⟨reviewUri (1 + i), SW "madeBy", u⟩ : Triple) ∈
            (process_csv initialPopulator rows today).graph ∧
          (⟨reviewUri (1 + j), SW "madeBy", u⟩ : Triple) ∈
            (process_csv initialPopulator rows today).graph) := by
  refine ⟨fun st a b c d u h => gocr_hit h, fun st a b c d h => gocr_miss_snd h, ?_⟩
  intro rows today i j hi hj hvi hvj htup
  obtain ⟨u1, hm1, hl1, ht1⟩ := processRows_madeBy rows today i hi hvi
  obtain ⟨u2, hm2, hl2, ht2⟩ := processRows_madeBy rows today j hj hvj
  rw [htup] at hl1
  obtain rfl := Option.some.inj (hl1.symm.trans hl2)
  exact ⟨u1, ht1, hm1, hm2⟩

theorem reviewer_dedup_witness :
    get_or_create_reviewer (get_or_create_reviewer initialPopulator "X" "P" "F" "G").1
        "X" "P" "F" "G" =
      ((get_or_create_reviewer initialPopulator "X" "P" "F" "G").1,
        SW "reviewer_1") ∧
    (get_or_create_reviewer initialPopulator "X" "P" "F" "G").2 =
      SW ("reviewer_" ++ toString (initialPopulator.reviewer_cache.length + 1)) ∧
    (∃ u,
      (⟨u, rdfType, SW "Reviewer"⟩ : Triple) ∈
        (process_csv initialPopulator [sampleRow1, sampleRow2] ⟨2025, 1, 1⟩).graph ∧
      (⟨reviewUri (1 + 0), SW "madeBy", u⟩ : Triple) ∈
        (process_csv initialPopulator [sampleRow1, sampleRow2] ⟨2025, 1, 1⟩).graph ∧
      (⟨reviewUri (1 + 1), SW "madeBy", u⟩ : Triple) ∈
        (process_csv initialPopulator [sampleRow1, sampleRow2] ⟨2025, 1, 1⟩).graph) :=
  ⟨reviewer_dedup.1 _ "X" "P" "F" "G" (SW "reviewer_1") (by decide),
   reviewer_dedup.2.1 initialPopulator "X" "P" "F" "G" (by decide),
   reviewer_dedup.2.2 [sampleRow1, sampleRow2] ⟨2025, 1, 1⟩ 0 1 (by decide)
     (by decide) (by decide) (by decide) (by decide)⟩

/-! ### Shape discrimination -/

theorem not_attrP_SW {x : String}
    (hx : x ∉ (["fonte", "recomendacao", "data_avaliacao", "comentario",
      "vantagem", "desvantagem", "sft_anterior", "motivo_mudanca"] : List String)) :
    ¬ reviewAttrPred (SW x) := by
  rintro (h | h | h | h | h | h | h | h) <;> rw [SW_eq_iff] at h <;> subst h <;>
    simp at hx

theorem reviewShape_p_cases {k : Nat} {t : Triple} (h : reviewShapeAt k t) :
    (t.p = rdfType ∧ t.o = SW "Review") ∨ reviewAttrPred t.p ∨
      t.p = SW "madeBy" ∨ (t.p = SW "hasReview" ∧ t.o = reviewUri k) := by
  rcases h with ⟨hs, h⟩ | ⟨hp, ho⟩
  · tauto
  · tauto

theorem not_reviewShape_of_p_SW {k : Nat} {t : Triple} {x : String}
    (hx8 : ¬ reviewAttrPred (SW x)) (hxm : x ≠ "madeBy") (hxh : x ≠ "hasReview")
    (hp : t.p = SW x) : ¬ reviewShapeAt k t := by
  intro h
  rcases reviewShape_p_cases h with ⟨h1, _⟩ | h1 | h1 | ⟨h1, _⟩ <;> rw [hp] at h1
  · exact SW_ne_rdfType x h1
  · exact hx8 h1
  · exact hxm (SW_injective h1)
  · exact hxh (SW_injective h1)

theorem not_reviewShape_type_obj {k : Nat} {t : Triple} {x : String}
    (hp : t.p = rdfType) (ho : t.o = SW x) (hx : x ≠ "Review") :
    ¬ reviewShapeAt k t := by
  intro h
  rcases reviewShape_p_cases h with ⟨h1, h2⟩ | h1 | h1 | ⟨h1, _⟩
  · rw [ho] at h2; exact hx (SW_injective h2)
  · rw [hp] at h1; exact not_attrP_rdfType h1
  · rw [hp] at h1; exact rdfType_ne_SW _ h1
  · rw [hp] at h1; exact rdfType_ne_SW _ h1

theorem softShape_not_reviewShape {sid : String} {k : Nat} {t : Triple}
    (h : softShapeFor sid t) : ¬ reviewShapeAt k t := by
  rcases h with rfl | rfl | ⟨v, rfl⟩ | ⟨v, rfl⟩
  · exact not_reviewShape_type_obj rfl rfl (by decide)
  · exact not_reviewShape_of_p_SW (not_attrP_SW (by decide)) (by decide) (by decide) rfl
  · exact not_reviewShape_of_p_SW (not_attrP_SW (by decide)) (by decide) (by decide) rfl
  · exact not_reviewShape_of_p_SW (not_attrP_SW (by decide)) (by decide) (by decide) rfl

theorem revShape_not_reviewShape {k : Nat} {t : Triple} (h : revShape t) :
    ¬ reviewShapeAt k t := by
  rcases h with ⟨hp, ho⟩ | hp | hp | hp | hp
  · exact not_reviewShape_type_obj hp ho (by decide)
  · exact not_reviewShape_of_p_SW (not_attrP_SW (by decide)) (by decide) (by decide) hp
  · exact not_reviewShape_of_p_SW (not_attrP_SW (by decide)) (by decide) (by decide) hp
  · exact not_reviewShape_of_p_SW (not_attrP_SW (by decide)) (by decide) (by decide) hp
  · exact not_reviewShape_of_p_SW (not_attrP_SW (by decide)) (by decide) (by decide) hp

theorem reviewShape_disjoint {m k : Nat} (hmk : m ≠ k) {t : Triple}
    (h1 : reviewShapeAt m t) : ¬ reviewShapeAt k t := by
  intro h2
  rcases h1 with ⟨hs1, hin1⟩ | ⟨hp1, ho1⟩
  · rcases h2 with ⟨hs2, _⟩ | ⟨hp2, _⟩
    · exact hmk (reviewUri_injective (hs1.symm.trans hs2))
    · rcases hin1 with ⟨hp1, _⟩ | hp1 | hp1
      · rw [hp2] at hp1; exact rdfType_ne_SW _ hp1.symm
      · rw [hp2] at hp1; exact not_attrP_hasReview hp1
      · rw [hp2] at hp1; exact absurd (SW_injective hp1) (by decide)
  · rcases h2 with ⟨hs2, hin2⟩ | ⟨hp2, ho2⟩
    · rcases hin2 with ⟨hp2, _⟩ | hp2 | hp2
      · rw [hp1] at hp2; exact rdfType_ne_SW _ hp2.symm
      · rw [hp1] at hp2; exact not_attrP_hasReview hp2
      · rw [hp1] at hp2; exact absurd (SW_injective hp2) (by decide)
    · exact hmk (reviewUri_injective (ho1.symm.trans ho2))

/-! ### Emptiness before a row and preservation after it -/

theorem init_no_type_SW {x : String} {t : Triple} (ht : t ∈ initializeOntology)
    (hp : t.p = rdfType) (ho : t.o = SW x) : False :=
  not_schema_type_SW x hp ho (init_schema_only t ht)

theorem processRows_no_reviewShape (rs : List Row) (today : PyDate) (k : Nat)
    (hk : 1 + rs.length ≤ k) :
    ∀ t ∈ (processRows initialPopulator rs 1 today).graph, ¬ reviewShapeAt k t := by
  intro t ht hshape
  rcases processRows_mem ht with h | h | h | h
  · exact reviewShape_not_schema hshape (init_schema_only t h)
  · obtain ⟨r, _, sid, _, hs⟩ := h
    exact softShape_not_reviewShape hs hshape
  · exact revShape_not_reviewShape h hshape
  · obtain ⟨m, h1, h2, hs⟩ := h
    exact reviewShape_disjoint (by omega) hs hshape

theorem processRows_review_filter_preserved {k : Nat} {p : Triple → Prop}
    [DecidablePred p] (hp : ∀ t, p t → reviewShapeAt k t) (st : Populator)
    (rs : List Row) (n : Nat) (today : PyDate) (hk : k < n) :
    (processRows st rs n today).graph.filter p = st.graph.filter p := by
  apply filter_eq_of_mem_iff (processRows_mono st rs n today)
  intro t ht hpt
  rcases processRows_mem ht with h | h | h | h
  · exact h
  · obtain ⟨r, _, sid, _, hs⟩ := h
    exact absurd (hp t hpt) (softShape_not_reviewShape hs)
  · exact absurd (hp t hpt) (revShape_not_reviewShape h)
  · obtain ⟨m, h1, _, hs⟩ := h
    exact absurd (hp t hpt) (reviewShape_disjoint (by omega) hs)

theorem gocs_review_filter_preserved {k : Nat} {p : Triple → Prop}
    [DecidablePred p] (hp : ∀ t, p t → reviewShapeAt k t) (st : Populator)
    (sid nm : String) (pg : Option String) :
    (get_or_create_software st sid nm pg).1.graph.filter p = st.graph.filter p := by
  apply filter_eq_of_mem_iff (gocs_mono st sid nm pg)
  intro t ht hpt
  rcases gocs_mem ht with h | h
  · exact h
  · exact absurd (hp t hpt) (softShape_not_reviewShape h)

theorem gocr_review_filter_preserved {k : Nat} {p : Triple → Prop}
    [DecidablePred p] (hp : ∀ t, p t → reviewShapeAt k t) (st : Populator)
    (a b c d : String) :
    (get_or_create_reviewer st a b c d).1.graph.filter p = st.graph.filter p := by
  apply filter_eq_of_mem_iff (gocr_graph_mono st a b c d)
  intro t ht hpt
  rcases gocr_mem ht with h | h
  · exact h
  · exact absurd (hp t hpt) (revShape_not_reviewShape h)

theorem hri_shape {k : Nat} : ∀ t : Triple,
    (t.p = SW "hasReview" ∧ t.o = reviewUri k) → reviewShapeAt k t :=
  fun _ h => Or.inr h

theorem mbf_shape {k : Nat} : ∀ t : Triple,
    (t.s = reviewUri k ∧ t.p = SW "madeBy") → reviewShapeAt k t :=
  fun _ h => Or.inl ⟨h.1, Or.inr (Or.inr h.2)⟩

theorem attr_shape {k : Nat} : ∀ t : Triple,
    (t.s = reviewUri k ∧ reviewAttrPred t.p) → reviewShapeAt k t :=
  fun _ h => Or.inl ⟨h.1, Or.inr (Or.inl h.2)⟩

/-! ### C4 and C3 machinery -/

theorem Triple.eq_mk {t : Triple} {x y z : Node} (hs : t.s = x) (hp : t.p = y)
    (ho : t.o = z) : t = ⟨x, y, z⟩ := by
  cases t
  subst hs hp ho
  rfl

theorem typedReview_subject {rows : List Row} {today : PyDate} {t : Triple}
    (ht : t ∈ (process_csv initialPopulator rows today).graph)
    (hp : t.p = rdfType) (ho : t.o = SW "Review") :
    ∃ m, 1 ≤ m ∧ m < 1 + rows.length ∧ t.s = reviewUri m := by
  rcases processRows_mem ht with h | h | h | h
  · exact absurd (init_no_type_SW h hp ho) (by simp)
  · obtain ⟨r, _, sid, _, hs⟩ := h
    rcases hs with rfl | rfl | ⟨v, rfl⟩ | ⟨v, rfl⟩
    · exact absurd (SW_injective ho) (by decide)
    · exact absurd hp (SW_ne_rdfType _)
    · exact absurd hp (SW_ne_rdfType _)
    · exact absurd hp (SW_ne_rdfType _)
  · rcases h with ⟨hp2, ho2⟩ | hp2 | hp2 | hp2 | hp2
    · exact absurd (SW_injective (ho2.symm.trans ho)) (by decide)
    · exact absurd (hp2.symm.trans hp) (SW_ne_rdfType _)
    · exact absurd (hp2.symm.trans hp) (SW_ne_rdfType _)
    · exact absurd (hp2.symm.trans hp) (SW_ne_rdfType _)
    · exact absurd (hp2.symm.trans hp) (SW_ne_rdfType _)
  · obtain ⟨m, h1, h2, hs⟩ := h
    rcases hs with ⟨hs, _⟩ | ⟨hp2, _⟩
    · exact ⟨m, h1, h2, hs⟩
    · exact absurd (hp2.symm.trans hp) (SW_ne_rdfType _)

theorem hri_empty_of_no_shape {g : Finset Triple} {k : Nat}
    (h : ∀ t ∈ g, ¬ reviewShapeAt k t) : hasReviewInto g (reviewUri k) = ∅ := by
  ext t
  simp only [hasReviewInto, Finset.mem_filter, Finset.not_mem_empty, iff_false]
  rintro ⟨ht, hpred⟩
  exact h t ht (hri_shape t hpred)

theorem mbf_empty_of_no_shape {g : Finset Triple} {k : Nat}
    (h : ∀ t ∈ g, ¬ reviewShapeAt k t) : madeByFrom g (reviewUri k) = ∅ := by
  ext t
  simp only [madeByFrom, Finset.mem_filter, Finset.not_mem_empty, iff_false]
  rintro ⟨ht, hpred⟩
  exact h t ht (mbf_shape t hpred)

theorem attr_empty_of_no_shape {g : Finset Triple} {k : Nat}
    (h : ∀ t ∈ g, ¬ reviewShapeAt k t) : attrFilter g k = ∅ := by
  ext t
  simp only [attrFilter, Finset.mem_filter, Finset.not_mem_empty, iff_false]
  rintro ⟨ht, hpred⟩
  exact h t ht (attr_shape t hpred)

theorem processRow_hasReviewInto {st : Populator} {row : Row} {n : Nat}
    {today : PyDate} (h : rowValid row) (sid : String)
    (hsw : rowGet? row "software_id" = some sid) :
    hasReviewInto (processRow st row n today).graph (reviewUri n) =
      insert ⟨softwareUri sid, SW "hasReview", reviewUri n⟩
        (hasReviewInto st.graph (reviewUri n)) := by
  obtain ⟨se, hse⟩ := rowValid_get h (show "setor" ∈ requiredKeys by decide)
  obtain ⟨po, hpo⟩ := rowValid_get h (show "porte" ∈ requiredKeys by decide)
  obtain ⟨fr, hfr⟩ := rowValid_get h (show "frequencia" ∈ requiredKeys by decide)
  obtain ⟨fc, hfc⟩ := rowValid_get h
    (show "frequencia_complementar" ∈ requiredKeys by decide)
  obtain ⟨da, hda⟩ := rowValid_get h (show "data_avaliacao" ∈ requiredKeys by decide)
  obtain ⟨fo, hfo⟩ := rowValid_get h (show "fonte" ∈ requiredKeys by decide)
  obtain ⟨re, hre⟩ := rowValid_get h (show "recomendacao" ∈ requiredKeys by decide)
  obtain ⟨co, hco⟩ := rowValid_get h (show "comentario" ∈ requiredKeys by decide)
  obtain ⟨va, hva⟩ := rowValid_get h (show "vantagem" ∈ requiredKeys by decide)
  obtain ⟨de, hde⟩ := rowValid_get h (show "desvantagem" ∈ requiredKeys by decide)
  simp only [processRow, hsw, hse, hpo, hfr, hfc]
  rw [prp_hasReviewInto hda hfo hre hco hva hde, gocs_snd]
  have e2 : hasReviewInto (get_or_create_reviewer (get_or_create_software st sid
      ((rowGet? row "name").getD ("Software " ++ sid)) (rowGet? row "pagina")).1
      se po fr fc).1.graph (reviewUri n) = hasReviewInto st.graph (reviewUri n) := by
    unfold hasReviewInto
    rw [gocr_review_filter_preserved hri_shape, gocs_review_filter_preserved hri_shape]
  rw [e2]

theorem processRow_madeByFrom {st : Populator} {row : Row} {n : Nat}
    {today : PyDate} (h : rowValid row) :
    ∃ u, madeByFrom (processRow st row n today).graph (reviewUri n) =
      insert ⟨reviewUri n, SW "madeBy", u⟩ (madeByFrom st.graph (reviewUri n)) := by
  obtain ⟨sid, hsw⟩ := rowValid_get h (show "software_id" ∈ requiredKeys by decide)
  obtain ⟨se, hse⟩ := rowValid_get h (show "setor" ∈ requiredKeys by decide)
  obtain ⟨po, hpo⟩ := rowValid_get h (show "porte" ∈ requiredKeys by decide)
  obtain ⟨fr, hfr⟩ := rowValid_get h (show "frequencia" ∈ requiredKeys by decide)
  obtain ⟨fc, hfc⟩ := rowValid_get h
    (show "frequencia_complementar" ∈ requiredKeys by decide)
  obtain ⟨da, hda⟩ := rowValid_get h (show "data_avaliacao" ∈ requiredKeys by decide)
  obtain ⟨fo, hfo⟩ := rowValid_get h (show "fonte" ∈ requiredKeys by decide)
  obtain ⟨re, hre⟩ := rowValid_get h (show "recomendacao" ∈ requiredKeys by decide)
  obtain ⟨co, hco⟩ := rowValid_get h (show "comentario" ∈ requiredKeys by decide)
  obtain ⟨va, hva⟩ := rowValid_get h (show "vantagem" ∈ requiredKeys by decide)
  obtain ⟨de, hde⟩ := rowValid_get h (show "desvantagem" ∈ requiredKeys by decide)
  simp only [processRow, hsw, hse, hpo, hfr, hfc]
  refine ⟨(get_or_create_reviewer (get_or_create_software st sid
      ((rowGet? row "name").getD ("Software " ++ sid)) (rowGet? row "pagina")).1
      se po fr fc).2, ?_⟩
  rw [prp_madeByFrom hda hfo hre hco hva hde]
  have e2 : madeByFrom (get_or_create_reviewer (get_or_create_software st sid
      ((rowGet? row "name").getD ("Software " ++ sid)) (rowGet? row "pagina")).1
      se po fr fc).1.graph (reviewUri n) = madeByFrom st.graph (reviewUri n) := by
    unfold madeByFrom
    rw [gocr_review_filter_preserved mbf_shape, gocs_review_filter_preserved mbf_shape]
  rw [e2]

theorem processRow_attrFilter {st : Populator} {row : Row} {n : Nat}
    {today : PyDate} (h : rowValid row) :
    attrFilter (processRow st row n today).graph n =
      reviewAttrTriples row n today ∪ attrFilter st.graph n := by
  obtain ⟨sid, hsw⟩ := rowValid_get h (show "software_id" ∈ requiredKeys by decide)
  obtain ⟨se, hse⟩ := rowValid_get h (show "setor" ∈ requiredKeys by decide)
  obtain ⟨po, hpo⟩ := rowValid_get h (show "porte" ∈ requiredKeys by decide)
  obtain ⟨fr, hfr⟩ := rowValid_get h (show "frequencia" ∈ requiredKeys by decide)
  obtain ⟨fc, hfc⟩ := rowValid_get h
    (show "frequencia_complementar" ∈ requiredKeys by decide)
  obtain ⟨da, hda⟩ := rowValid_get h (show "data_avaliacao" ∈ requiredKeys by decide)
  obtain ⟨fo, hfo⟩ := rowValid_get h (show "fonte" ∈ requiredKeys by decide)
  obtain ⟨re, hre⟩ := rowValid_get h (show "recomendacao" ∈ requiredKeys by decide)
  obtain ⟨co, hco⟩ := rowValid_get h (show "comentario" ∈ requiredKeys by decide)
  obtain ⟨va, hva⟩ := rowValid_get h (show "vantagem" ∈ requiredKeys by decide)
  obtain ⟨de, hde⟩ := rowValid_get h (show "desvantagem" ∈ requiredKeys by decide)
  simp only [processRow, hsw, hse, hpo, hfr, hfc]
  rw [prp_attrFilter hda hfo hre hco hva hde]
  have e2 : attrFilter (get_or_create_reviewer (get_or_create_software st sid
      ((rowGet? row "name").getD ("Software " ++ sid)) (rowGet? row "pagina")).1
      se po fr fc).1.graph n = attrFilter st.graph n := by
    unfold attrFilter
    rw [gocr_review_filter_preserved attr_shape, gocs_review_filter_preserved attr_shape]
  rw [e2]

theorem processRows_review_type_mem (rows : List Row) (today : PyDate) (i : Nat)
    (hi : i < rows.length) (h : rowValid rows[i]) :
    (⟨reviewUri (1 + i), rdfType, SW "Review"⟩ : Triple) ∈
      (process_csv initialPopulator rows today).graph := by
  unfold process_csv
  rw [processRows_split rows i initialPopulator 1 today hi]
  obtain ⟨ds, hda⟩ := rowValid_get h (show "data_avaliacao" ∈ requiredKeys by decide)
  exact processRows_mono _ _ _ _ ((processRow_data_mem h ds hda).1)

/-- C4 counterexample: on an input whose row has `software_id`, the
reviewer fields, and `data_avaliacao` but no `fonte`, the loop body adds
the Review type triple and then hits the `KeyError` on `row['fonte']`, so
the final graph contains a subject typed Review that is the object of no
`hasReview` triple and the subject of no `madeBy` triple. -/
theorem review_orphan_counterexample :
    (⟨reviewUri 1, rdfType, SW "Review"⟩ : Triple) ∈
      (process_csv initialPopulator [badRow] ⟨2024, 1, 2⟩).graph ∧
    (hasReviewInto (process_csv initialPopulator [badRow] ⟨2024, 1, 2⟩).graph
      (reviewUri 1)).card = 0 ∧
    (madeByFrom (process_csv initialPopulator [badRow] ⟨2024, 1, 2⟩).graph
      (reviewUri 1)).card = 0 := by
  refine ⟨by decide, by decide, by decide⟩

/-- C4 (amended): when every input row has all its required fields (no
row is skipped mid-way), every subject typed Review in the final graph
is the object of exactly one `hasReview` triple and the subject of
exactly one `madeBy` triple.  (The restriction is forced: a row that
fails after the Review type triple is emitted leaves a Review with no
owner and no author, as `review_orphan_counterexample` shows.) -/
theorem review_links_unique (rows : List Row) (today : PyDate)
    (hall : ∀ r ∈ rows, rowValid r) :
    ∀ t ∈ (process_csv initialPopulator rows today).graph,
      t.p = rdfType → t.o = SW "Review" →
      (hasReviewInto (process_csv initialPopulator rows today).graph t.s).card = 1 ∧
      (madeByFrom (process_csv initialPopulator rows today).graph t.s).card = 1 := by
  intro t ht hp ho
  obtain ⟨m, hm1, hm2, hsub⟩ := typedReview_subject ht hp ho
  have hi : m - 1 < rows.length := by omega
  have hv : rowValid rows[m - 1] := hall _ (List.getElem_mem hi)
  obtain ⟨sid, hsw⟩ := rowValid_get hv (show "software_id" ∈ requiredKeys by decide)
  have hm : 1 + (m - 1) = m := by omega
  rw [hsub, ← hm]
  have hkle : 1 + (rows.take (m - 1)).length ≤ 1 + (m - 1) := by
    rw [List.length_take]; omega
  constructor
  · unfold process_csv
    rw [processRows_split rows (m - 1) initialPopulator 1 today hi]
    have hpres : hasReviewInto (processRows
        (processRow (processRows initialPopulator (rows.take (m - 1)) 1 today)
          rows[m - 1] (1 + (m - 1)) today)
        (rows.drop (m - 1 + 1)) (1 + (m - 1) + 1) today).graph
        (reviewUri (1 + (m - 1))) =
        hasReviewInto (processRow (processRows initialPopulator (rows.take (m - 1)) 1 today)
          rows[m - 1] (1 + (m - 1)) today).graph (reviewUri (1 + (m - 1))) := by
      unfold hasReviewInto
      exact processRows_review_filter_preserved hri_shape _ _ _ _ (by omega)
    rw [hpres, processRow_hasReviewInto hv sid hsw,
      hri_empty_of_no_shape (processRows_no_reviewShape _ _ _ hkle)]
    simp
  · unfold process_csv
    rw [processRows_split rows (m - 1) initialPopulator 1 today hi]
    have hpres : madeByFrom (processRows
        (processRow (processRows initialPopulator (rows.take (m - 1)) 1 today)
          rows[m - 1] (1 + (m - 1)) today)
        (rows.drop (m - 1 + 1)) (1 + (m - 1) + 1) today).graph
        (reviewUri (1 + (m - 1))) =
        madeByFrom (processRow (processRows initialPopulator (rows.take (m - 1)) 1 today)
          rows[m - 1] (1 + (m - 1)) today).graph (reviewUri (1 + (m - 1))) := by
      unfold madeByFrom
      exact processRows_review_filter_preserved mbf_shape _ _ _ _ (by omega)
    obtain ⟨u, he⟩ := @processRow_madeByFrom
      (processRows initialPopulator (rows.take (m - 1)) 1 today) (rows[m - 1])
      (1 + (m - 1)) today hv
    rw [hpres, he, mbf_empty_of_no_shape (processRows_no_reviewShape _ _ _ hkle)]
    simp

theorem review_links_unique_witness :
    (⟨reviewUri 1, rdfType, SW "Review"⟩ : Triple) ∈
      (process_csv initialPopulator [sampleRow1, sampleRow2] ⟨2025, 1, 1⟩).graph ∧
    (hasReviewInto (process_csv initialPopulator [sampleRow1, sampleRow2]
      ⟨2025, 1, 1⟩).graph (reviewUri 1)).card = 1 ∧
    (madeByFrom (process_csv initialPopulator [sampleRow1, sampleRow2]
      ⟨2025, 1, 1⟩).graph (reviewUri 1)).card = 1 :=
  ⟨by decide,
   (review_links_unique [sampleRow1, sampleRow2] ⟨2025, 1, 1⟩ (by decide)
     ⟨reviewUri 1, rdfType, SW "Review"⟩ (by decide) rfl rfl).1,
   (review_links_unique [sampleRow1, sampleRow2] ⟨2025, 1, 1⟩ (by decide)
     ⟨reviewUri 1, rdfType, SW "Review"⟩ (by decide) rfl rfl).2⟩

/-- C3: for an input of N rows with every required field present, the
final graph has exactly N subjects typed Review (this count is what
`print_statistics` reports), and the Review-attribute triples of
`review_<i+1>` are exactly those derived from row i itself — no
attribute triple of another row attaches to it. -/
theorem review_per_row (rows : List Row) (today : PyDate)
    (hall : ∀ r ∈ rows, rowValid r) :
    review_count (process_csv initialPopulator rows today) = rows.length ∧
    ∀ i (hi : i < rows.length),
      attrFilter (process_csv initialPopulator rows today).graph (1 + i) =
        reviewAttrTriples rows[i] (1 + i) today := by
  constructor
  · unfold review_count subjectsCount
    have himg : (process_csv initialPopulator rows today).graph.filter
        (fun t => t.p = rdfType ∧ t.o = SW "Review") =
        (Finset.range rows.length).image
          (fun i => (⟨reviewUri (1 + i), rdfType, SW "Review"⟩ : Triple)) := by
      ext t
      simp only [Finset.mem_filter, Finset.mem_image, Finset.mem_range]
      constructor
      · rintro ⟨ht, hp, ho⟩
        obtain ⟨m, h1, h2, hsub⟩ := typedReview_subject ht hp ho
        refine ⟨m - 1, by omega, ?_⟩
        have hm : 1 + (m - 1) = m := by omega
        rw [hm, (Triple.eq_mk hsub hp ho : t = _)]
      · rintro ⟨i, hi, rfl⟩
        exact ⟨processRows_review_type_mem rows today i hi
          (hall _ (List.getElem_mem hi)), rfl, rfl⟩
    have hinj : Function.Injective
        (fun i : Nat => (⟨reviewUri (1 + i), rdfType, SW "Review"⟩ : Triple)) := by
      intro a b hab
      simp only [Triple.mk.injEq] at hab
      have := reviewUri_injective hab.1
      omega
    rw [himg, Finset.card_image_of_injective _ hinj, Finset.card_range]
  · intro i hi
    have hv := hall _ (List.getElem_mem hi)
    unfold process_csv
    rw [processRows_split rows i initialPopulator 1 today hi]
    have hpres : attrFilter (processRows
        (processRow (processRows initialPopulator (rows.take i) 1 today)
          rows[i] (1 + i) today)
        (rows.drop (i + 1)) (1 + i + 1) today).graph (1 + i) =
        attrFilter (processRow (processRows initialPopulator (rows.take i) 1 today)
          rows[i] (1 + i) today).graph (1 + i) := by
      unfold attrFilter
      exact processRows_review_filter_preserved attr_shape _ _ _ _ (by omega)
    have hkle : 1 + (rows.take i).length ≤ 1 + i := by
      rw [List.length_take]; omega
    rw [hpres, processRow_attrFilter hv,
      attr_empty_of_no_shape (processRows_no_reviewShape _ _ _ hkle),
      Finset.union_empty]

theorem review_per_row_witness :
    review_count (process_csv initialPopulator [sampleRow1, sampleRow2]
      ⟨2025, 1, 1⟩) = 2 ∧
    attrFilter (process_csv initialPopulator [sampleRow1, sampleRow2]
      ⟨2025, 1, 1⟩).graph 1 = reviewAttrTriples sampleRow1 1 ⟨2025, 1, 1⟩ :=
  ⟨(review_per_row [sampleRow1, sampleRow2] ⟨2025, 1, 1⟩ (by decide)).1,
   (review_per_row [sampleRow1, sampleRow2] ⟨2025, 1, 1⟩ (by decide)).2 0 (by decide)⟩

/-! ### C1 machinery: first-row-wins for Software -/

theorem swid_triple_shape {rows : List Row} {today : PyDate} {t : Triple}
    (ht : t ∈ (process_csv initialPopulator rows today).graph)
    (hp : t.p = SW "software_id") :
    ∃ sid, t.s = softwareUri sid ∧ t.o = .lit sid := by
  rcases processRows_mem ht with h | h | h | h
  · exact absurd (init_schema_only t h) (not_schema_of_p_SW _ hp)
  · obtain ⟨r, _, sid, _, hs⟩ := h
    rcases hs with rfl | rfl | ⟨v, rfl⟩ | ⟨v, rfl⟩
    · exact absurd hp (rdfType_ne_SW _)
    · exact ⟨sid, rfl, rfl⟩
    · exact absurd (SW_injective hp) (by decide)
    · exact absurd (SW_injective hp) (by decide)
  · rcases h with ⟨hp2, _⟩ | hp2 | hp2 | hp2 | hp2
    · exact absurd (hp2.symm.trans hp) (rdfType_ne_SW _)
    · exact absurd (SW_injective (hp2.symm.trans hp)) (by decide)
    · exact absurd (SW_injective (hp2.symm.trans hp)) (by decide)
    · exact absurd (SW_injective (hp2.symm.trans hp)) (by decide)
    · exact absurd (SW_injective (hp2.symm.trans hp)) (by decide)
  · obtain ⟨m, _, _, hs⟩ := h
    rcases reviewShape_p_cases hs with ⟨hp2, _⟩ | hp2 | hp2 | ⟨hp2, _⟩
    · exact absurd (hp2.symm.trans hp) (rdfType_ne_SW _)
    · rw [hp] at hp2
      exact absurd hp2 (not_attrP_SW (by decide))
    · exact absurd (SW_injective (hp2.symm.trans hp)) (by decide)
    · exact absurd (SW_injective (hp2.symm.trans hp)) (by decide)

theorem type_absent_before (rs : List Row) (today : PyDate) (id : String)
    (hno : ∀ r ∈ rs, rowGet? r "software_id" ≠ some id) :
    (⟨softwareUri id, rdfType, SW "Software"⟩ : Triple) ∉
      (processRows initialPopulator rs 1 today).graph := by
  intro hmem
  rcases processRows_mem hmem with h | h | h | h
  · exact init_no_type_SW h rfl rfl
  · obtain ⟨r, hr, sid, hsid, hs⟩ := h
    rcases hs with heq | heq | ⟨v, heq⟩ | ⟨v, heq⟩
    · have hsi : id = sid := softwareUri_injective (congrArg Triple.s heq)
      exact hno r hr (hsi ▸ hsid)
    · exact rdfType_ne_SW _ (congrArg Triple.p heq)
    · exact rdfType_ne_SW _ (congrArg Triple.p heq)
    · exact rdfType_ne_SW _ (congrArg Triple.p heq)
  · rcases h with ⟨_, ho⟩ | hp | hp | hp | hp
    · exact absurd (SW_injective ho) (by decide)
    · exact rdfType_ne_SW _ hp
    · exact rdfType_ne_SW _ hp
    · exact rdfType_ne_SW _ hp
    · exact rdfType_ne_SW _ hp
  · obtain ⟨m, _, _, hs⟩ := h
    rcases reviewShape_p_cases hs with ⟨_, ho⟩ | hp | hp | ⟨hp, _⟩
    · exact absurd (SW_injective ho) (by decide)
    · exact not_attrP_rdfType hp
    · exact rdfType_ne_SW _ hp
    · exact rdfType_ne_SW _ hp

theorem namePag_empty_before (rs : List Row) (today : PyDate) (id : String)
    (hno : ∀ r ∈ rs, rowGet? r "software_id" ≠ some id) :
    namePagFilter (processRows initialPopulator rs 1 today).graph id = ∅ := by
  ext t
  simp only [namePagFilter, Finset.mem_filter, Finset.not_mem_empty, iff_false]
  rintro ⟨ht, hsub, hpred⟩
  rcases processRows_mem ht with h | h | h | h
  · rcases hpred with hp | hp <;>
      exact absurd (init_schema_only t h) (not_schema_of_p_SW _ hp)
  · obtain ⟨r, hr, sid, hsid, hs⟩ := h
    rcases hs with rfl | rfl | ⟨v, rfl⟩ | ⟨v, rfl⟩
    · rcases hpred with hp | hp <;> exact rdfType_ne_SW _ hp
    · rcases hpred with hp | hp <;> exact absurd (SW_injective hp) (by decide)
    · have hsi : sid = id := softwareUri_injective hsub
      exact hno r hr (hsi ▸ hsid)
    · have hsi : sid = id := softwareUri_injective hsub
      exact hno r hr (hsi ▸ hsid)
  · rcases h with ⟨hp2, _⟩ | hp2 | hp2 | hp2 | hp2 <;>
      rcases hpred with hp | hp <;>
      first
      | exact rdfType_ne_SW _ (hp2.symm.trans hp)
      | exact absurd (SW_injective (hp2.symm.trans hp)) (by decide)
  · obtain ⟨m, _, _, hs⟩ := h
    rcases reviewShape_p_cases hs with ⟨hp2, _⟩ | hp2 | hp2 | ⟨hp2, _⟩
    · rcases hpred with hp | hp <;> exact rdfType_ne_SW _ (hp2.symm.trans hp)
    · rcases hpred with hp | hp <;> rw [hp] at hp2 <;>
        exact absurd hp2 (not_attrP_SW (by decide))
    · rcases hpred with hp | hp <;>
        exact absurd (SW_injective (hp2.symm.trans hp)) (by decide)
    · rcases hpred with hp | hp <;>
        exact absurd (SW_injective (hp2.symm.trans hp)) (by decide)

theorem npf_skip {a : Triple} (g : Finset Triple) (sid : String)
    (ha : ¬(a.s = softwareUri sid ∧ (a.p = SW "name" ∨ a.p = SW "pagina"))) :
    namePagFilter (graphAdd g a) sid = namePagFilter g sid := by
  simp [namePagFilter, graphAdd, Finset.filter_insert, ha]

theorem npf_add_name (g : Finset Triple) (sid : String) (v : Node) :
    namePagFilter (graphAdd g ⟨softwareUri sid, SW "name", v⟩) sid =
      insert ⟨softwareUri sid, SW "name", v⟩ (namePagFilter g sid) := by
  simp [namePagFilter, graphAdd, Finset.filter_insert]

theorem npf_add_pagina (g : Finset Triple) (sid : String) (v : Node) :
    namePagFilter (graphAdd g ⟨softwareUri sid, SW "pagina", v⟩) sid =
      insert ⟨softwareUri sid, SW "pagina", v⟩ (namePagFilter g sid) := by
  simp [namePagFilter, graphAdd, Finset.filter_insert]

theorem gocs_idT_mem {st : Populator} (sid nm : String) (pg : Option String)
    (habs : (⟨softwareUri sid, rdfType, SW "Software"⟩ : Triple) ∉ st.graph) :
    (⟨softwareUri sid, SW "software_id", .lit sid⟩ : Triple) ∈
      (get_or_create_software st sid nm pg).1.graph := by
  cases pg with
  | none =>
    simp only [get_or_create_software]
    rw [if_neg habs]
    simp [mem_graphAdd]
  | some p =>
    simp only [get_or_create_software]
    rw [if_neg habs]
    by_cases hp : p = "" <;> simp [hp, mem_graphAdd]

theorem gocs_namePag_miss {st : Populator} (sid nm : String) (pg : Option String)
    (habs : (⟨softwareUri sid, rdfType, SW "Software"⟩ : Triple) ∉ st.graph) :
    namePagFilter (get_or_create_software st sid nm pg).1.graph sid =
      namePagTriples sid nm pg ∪ namePagFilter st.graph sid := by
  have hskip_t : ∀ (g : Finset Triple) (o : Node),
      namePagFilter (graphAdd g ⟨softwareUri sid, rdfType, o⟩) sid =
        namePagFilter g sid := by
    intro g o
    apply npf_skip
    rintro ⟨_, hp | hp⟩ <;> exact rdfType_ne_SW _ hp
  have hskip_i : ∀ g : Finset Triple,
      namePagFilter (graphAdd g ⟨softwareUri sid, SW "software_id", .lit sid⟩) sid =
        namePagFilter g sid := by
    intro g
    apply npf_skip
    rintro ⟨_, hp | hp⟩ <;> exact absurd (SW_injective hp) (by decide)
  cases pg with
  | none =>
    simp only [get_or_create_software]
    rw [if_neg habs]
    show namePagFilter (graphAdd (graphAdd (graphAdd st.graph _) _) _) sid = _
    rw [npf_add_name, hskip_i, hskip_t]
    ext t
    simp [namePagTriples]
  | some p =>
    simp only [get_or_create_software]
    rw [if_neg habs]
    by_cases hp : p = ""
    · simp only [hp, if_true]
      show namePagFilter (graphAdd (graphAdd (graphAdd st.graph _) _) _) sid = _
      rw [npf_add_name, hskip_i, hskip_t]
      ext t
      simp [namePagTriples]
    · simp only [hp, if_false]
      show namePagFilter
          (graphAdd (graphAdd (graphAdd (graphAdd st.graph _) _) _) _) sid = _
      rw [npf_add_pagina, npf_add_name, hskip_i, hskip_t]
      ext t
      simp only [namePagTriples, hp, if_false, Finset.mem_insert,
        Finset.mem_union, Finset.mem_singleton]
      tauto

theorem gocs_namePag_other {st : Populator} {sid2 sid : String} (nm : String)
    (pg : Option String) (hne : sid2 ≠ sid) :
    namePagFilter (get_or_create_software st sid2 nm pg).1.graph sid =
      namePagFilter st.graph sid := by
  unfold namePagFilter
  apply filter_eq_of_mem_iff (gocs_mono st sid2 nm pg)
  intro t ht hpt
  rcases gocs_mem ht with h | h
  · exact h
  · rcases h with rfl | rfl | ⟨v, rfl⟩ | ⟨v, rfl⟩
    · rcases hpt.2 with hp | hp <;> exact absurd hp (rdfType_ne_SW _)
    · rcases hpt.2 with hp | hp <;> exact absurd (SW_injective hp) (by decide)
    · exact absurd (softwareUri_injective hpt.1) hne
    · exact absurd (softwareUri_injective hpt.1) hne

theorem gocr_namePag (st : Populator) (a b c d : String) (sid : String) :
    namePagFilter (get_or_create_reviewer st a b c d).1.graph sid =
      namePagFilter st.graph sid := by
  unfold namePagFilter
  apply filter_eq_of_mem_iff (gocr_graph_mono st a b c d)
  intro t ht hpt
  rcases gocr_mem ht with h | h
  · exact h
  · rcases h with ⟨hp2, _⟩ | hp2 | hp2 | hp2 | hp2 <;>
      rcases hpt.2 with hp | hp <;>
      first
      | exact absurd (hp2.symm.trans hp) (rdfType_ne_SW _)
      | exact absurd (SW_injective (hp2.symm.trans hp)) (by decide)

theorem prp_namePag (st : Populator) (row : Row) (n : Nat) (today : PyDate)
    (su ru : Node) (sid : String) :
    namePagFilter (processReviewPart st row n today su ru).graph sid =
      namePagFilter st.graph sid := by
  unfold namePagFilter
  apply filter_eq_of_mem_iff (prp_mono st row n today su ru)
  intro t ht hpt
  rcases prp_mem ht with h | h
  · exact h
  · rcases reviewShape_p_cases h with ⟨hp2, _⟩ | hp2 | hp2 | ⟨hp2, _⟩
    · rcases hpt.2 with hp | hp <;> exact absurd (hp2.symm.trans hp) (rdfType_ne_SW _)
    · rcases hpt.2 with hp | hp <;> rw [hp] at hp2 <;>
        exact absurd hp2 (not_attrP_SW (by decide))
    · rcases hpt.2 with hp | hp <;>
        exact absurd (SW_injective (hp2.symm.trans hp)) (by decide)
    · rcases hpt.2 with hp | hp <;>
        exact absurd (SW_injective (hp2.symm.trans hp)) (by decide)

theorem processRow_namePag_preserved {st : Populator} {row : Row} {n : Nat}
    {today : PyDate} {id : String}
    (htyped : (⟨softwareUri id, rdfType, SW "Software"⟩ : Triple) ∈ st.graph) :
    namePagFilter (processRow st row n today).graph id =
      namePagFilter st.graph id := by
  rcases hsw : rowGet? row "software_id" with _ | sid
  · simp only [processRow, hsw]
  · simp only [processRow, hsw]
    by_cases hsid : sid = id
    · subst hsid
      rw [gocs_hit ((rowGet? row "name").getD ("Software " ++ sid))
        (rowGet? row "pagina") htyped]
      rcases hse : rowGet? row "setor" with _ | se <;>
        rcases hpo : rowGet? row "porte" with _ | po <;>
          rcases hfr : rowGet? row "frequencia" with _ | fr <;>
            rcases hfc : rowGet? row "frequencia_complementar" with _ | fc <;>
              first
              | rfl
              | (show namePagFilter (processReviewPart
                    (get_or_create_reviewer ((st, softwareUri sid)).1 _ _ _ _).1
                    row n today _ _).graph sid = _
                 rw [prp_namePag, gocr_namePag])
    · rcases hse : rowGet? row "setor" with _ | se <;>
        rcases hpo : rowGet? row "porte" with _ | po <;>
          rcases hfr : rowGet? row "frequencia" with _ | fr <;>
            rcases hfc : rowGet? row "frequencia_complementar" with _ | fc <;>
              first
              | exact gocs_namePag_other _ _ hsid
              | (show namePagFilter (processReviewPart _ row n today _ _).graph id = _
                 rw [prp_namePag, gocr_namePag]
                 exact gocs_namePag_other _ _ hsid)

theorem processRows_namePag_preserved {today : PyDate} {id : String} :
    ∀ (rs : List Row) (st : Populator) (n : Nat),
      (⟨softwareUri id, rdfType, SW "Software"⟩ : Triple) ∈ st.graph →
      namePagFilter (processRows st rs n today).graph id =
        namePagFilter st.graph id := by
  intro rs
  induction rs with
  | nil => intro st n _; rfl
  | cons row rest ih =>
    intro st n htyped
    simp only [processRows]
    rw [ih _ _ (processRow_mono st row n today htyped),
      processRow_namePag_preserved htyped]

theorem processRow_namePag_first {st : Populator} {row : Row} {n : Nat}
    {today : PyDate} {id : String}
    (hsw : rowGet? row "software_id" = some id)
    (habs : (⟨softwareUri id, rdfType, SW "Software"⟩ : Triple) ∉ st.graph) :
    namePagFilter (processRow st row n today).graph id =
      namePagTriples id ((rowGet? row "name").getD ("Software " ++ id))
        (rowGet? row "pagina") ∪ namePagFilter st.graph id ∧
    (⟨softwareUri id, rdfType, SW "Software"⟩ : Triple) ∈
      (processRow st row n today).graph ∧
    (⟨softwareUri id, SW "software_id", .lit id⟩ : Triple) ∈
      (processRow st row n today).graph := by
  simp only [processRow, hsw]
  rcases hse : rowGet? row "setor" with _ | se <;>
    rcases hpo : rowGet? row "porte" with _ | po <;>
      rcases hfr : rowGet? row "frequencia" with _ | fr <;>
        rcases hfc : rowGet? row "frequencia_complementar" with _ | fc <;>
          first
          | exact ⟨gocs_namePag_miss _ _ _ habs, gocs_typed _ _ _ _,
              gocs_idT_mem _ _ _ habs⟩
          | exact ⟨by rw [prp_namePag, gocr_namePag]
                      exact gocs_namePag_miss _ _ _ habs,
              prp_mono _ _ _ _ _ _ (gocr_graph_mono _ _ _ _ _ (gocs_typed _ _ _ _)),
              prp_mono _ _ _ _ _ _
                (gocr_graph_mono _ _ _ _ _ (gocs_idT_mem _ _ _ habs))⟩

/-- C1: for the first row that introduces a `software_id` (no earlier row
carries that id), the final graph contains exactly one subject that is
typed Software and carries that `software_id` literal; its name/pagina
attribute triples are exactly those derived from that first row; and on
any state where the Software already exists, `_get_or_create_software`
is a strict no-op returning the existing URI — later rows with the same
id (whatever their name/pagina) mutate nothing for the Software. -/
theorem software_first_row_wins (rows : List Row) (today : PyDate) (id : String)
    (i : Nat) (hi : i < rows.length)
    (hfirst : rowGet? rows[i] "software_id" = some id)
    (hbefore : ∀ j (hj : j < rows.length), j < i →
      rowGet? rows[j] "software_id" ≠ some id) :
    (∃! sN : Node,
      (⟨sN, rdfType, SW "Software"⟩ : Triple) ∈
        (process_csv initialPopulator rows today).graph ∧
      (⟨sN, SW "software_id", .lit id⟩ : Triple) ∈
        (process_csv initialPopulator rows today).graph) ∧
    namePagFilter (process_csv initialPopulator rows today).graph id =
      namePagTriples id ((rowGet? rows[i] "name").getD ("Software " ++ id))
        (rowGet? rows[i] "pagina") ∧
    (∀ (st : Populator) (nm : String) (pg : Option String),
      (⟨softwareUri id, rdfType, SW "Software"⟩ : Triple) ∈ st.graph →
      get_or_create_software st id nm pg = (st, softwareUri id)) := by
  have hno : ∀ r ∈ rows.take i, rowGet? r "software_id" ≠ some id := by
    intro r hr
    obtain ⟨j, hj, hje⟩ := List.getElem_of_mem hr
    have hj2 : j < i := by
      have := hj
      rw [List.length_take] at this
      omega
    have hjlen : j < rows.length := by omega
    have he2 : (rows.take i)[j] = rows[j] := List.getElem_take rows
    rw [← hje, he2]
    exact hbefore j hjlen hj2
  have habs := type_absent_before (rows.take i) today id hno
  have hempty := namePag_empty_before (rows.take i) today id hno
  have hsplit := processRows_split rows i initialPopulator 1 today hi
  obtain ⟨hfilt, htyped, hid⟩ := processRow_namePag_first hfirst habs
  have hmem_t : (⟨softwareUri id, rdfType, SW "Software"⟩ : Triple) ∈
      (process_csv initialPopulator rows today).graph := by
    unfold process_csv
    rw [hsplit]
    exact processRows_mono _ _ _ _ htyped
  have hmem_i : (⟨softwareUri id, SW "software_id", .lit id⟩ : Triple) ∈
      (process_csv initialPopulator rows today).graph := by
    unfold process_csv
    rw [hsplit]
    exact processRows_mono _ _ _ _ hid
  have hfil_final : namePagFilter (process_csv initialPopulator rows today).graph id =
      namePagTriples id ((rowGet? rows[i] "name").getD ("Software " ++ id))
        (rowGet? rows[i] "pagina") := by
    unfold process_csv
    rw [hsplit, processRows_namePag_preserved _ _ _ htyped, hfilt, hempty,
      Finset.union_empty]
  refine ⟨⟨softwareUri id, ⟨hmem_t, hmem_i⟩, ?_⟩, hfil_final,
    fun st nm pg h => gocs_hit nm pg h⟩
  rintro sN ⟨hts, his⟩
  obtain ⟨sid, hs1, hs2⟩ := swid_triple_shape his rfl
  exact hs1.trans (congrArg softwareUri (Node.lit.inj hs2).symm)

theorem software_first_row_wins_witness :
    (∃! sN : Node,
      (⟨sN, rdfType, SW "Software"⟩ : Triple) ∈
        (process_csv initialPopulator [sampleRow1, sampleRow2] ⟨2025, 1, 1⟩).graph ∧
      (⟨sN, SW "software_id", .lit "s1"⟩ : Triple) ∈
        (process_csv initialPopulator [sampleRow1, sampleRow2] ⟨2025, 1, 1⟩).graph) ∧
    namePagFilter (process_csv initialPopulator [sampleRow1, sampleRow2]
        ⟨2025, 1, 1⟩).graph "s1" =
      namePagTriples "s1" "Alpha" (some "http://a.example") ∧
    get_or_create_software
        (get_or_create_software initialPopulator "s1" "Alpha" none).1
        "s1" "Beta" none =
      ((get_or_create_software initialPopulator "s1" "Alpha" none).1,
        softwareUri "s1") := by
  have h := software_first_row_wins [sampleRow1, sampleRow2] ⟨2025, 1, 1⟩ "s1" 0
    (by decide) (by decide)
    (by intro j hj h0; exact absurd h0 (by omega))
  exact ⟨h.1, h.2.1, h.2.2 _ "Beta" none (by decide)⟩

end CsvToOntology
